import Mathlib

/-!
# Verification of the godel plugin resolution, verification and aggregation engine

Shallow embedding of the `plugins` package (`loadPluginsTasks`, `resolvePlugins`,
`verifyPluginCompatibility`, `verifySinglePluginCompatibility`) together with the
external collaborators it relies on.  Go maps are embedded as association lists
with distinct keys; Go's `map[k]v` assignment is `upsert`; the sorting of locator
keys performed before any iteration that must be deterministic is embedded with
insertion sort over the locator order (group, then product, then version).
-/

set_option autoImplicit false

namespace GodelPlugins

/-- `artifactresolver.Locator`: coordinate of a plugin or asset artifact.
Identity in Go is structural equality of the full tuple. -/
structure Locator where
  group : String
  product : String
  version : String
deriving DecidableEq

/-- The sort key of a locator: the lexicographic triple (group, product, version).
Modelled from the spec: locators are totally ordered by group, then product,
then version (`pluginsinternal.SortLocators` is not part of the sources). -/
def Locator.key (l : Locator) : List Char ×ₗ (List Char ×ₗ List Char) :=
  toLex (l.group.data, toLex (l.product.data, l.version.data))

/-- Non-strict locator order. -/
def locLe (a b : Locator) : Prop := a.key ≤ b.key

/-- Strict locator order. -/
def locLt (a b : Locator) : Prop := a.key < b.key

instance : DecidableRel locLe := fun a b => inferInstanceAs (Decidable (a.key ≤ b.key))

instance : DecidableRel locLt := fun a b => inferInstanceAs (Decidable (a.key < b.key))

theorem Locator.key_injective : Function.Injective Locator.key := by
  intro a b h
  obtain ⟨⟨ga⟩, ⟨pa⟩, ⟨va⟩⟩ := a
  obtain ⟨⟨gb⟩, ⟨pb⟩, ⟨vb⟩⟩ := b
  simp only [Locator.key, toLex, Equiv.coe_fn_mk, Prod.mk.injEq] at h
  simp_all

instance : IsTotal Locator locLe := ⟨fun a b => le_total a.key b.key⟩

instance : IsTrans Locator locLe := ⟨fun _ _ _ h1 h2 => le_trans h1 h2⟩

instance : IsAntisymm Locator locLe :=
  ⟨fun a b h1 h2 => Locator.key_injective (le_antisymm h1 h2)⟩

theorem locLt_iff_locLe_ne {a b : Locator} : locLt a b ↔ locLe a b ∧ a ≠ b := by
  constructor
  · intro h
    exact ⟨le_of_lt h, fun he => absurd h (by simp [he, locLt, lt_irrefl])⟩
  · rintro ⟨h1, h2⟩
    exact lt_of_le_of_ne h1 (fun hk => h2 (Locator.key_injective hk))

theorem locLt_asymm {a b : Locator} (h : locLt a b) : ¬ locLt b a := fun h2 =>
  absurd (lt_trans (α := List Char ×ₗ (List Char ×ₗ List Char)) h h2) (lt_irrefl _)

/-- `pluginsinternal.SortLocators`: sorts a slice of locators in place.
Modelled from the spec: deterministic total order by group, product, version. -/
def sortLocators (ls : List Locator) : List Locator := List.insertionSort locLe ls

/-- Sorting strings ascending (Go `sort.Strings`). -/
def sortStrings (ss : List String) : List String :=
  List.insertionSort (fun a b : String => a ≤ b) ss

/-- `godellauncher.Task`: a runnable task descriptor.  Modelled from the spec:
a task is materialized by the plugin info bound to the plugin's executable path
and its assets' paths (`godellauncher` is not part of the sources). -/
structure GTask where
  name : String
  pluginExecPath : String
  assetPaths : List String
deriving DecidableEq

/-- `godellauncher.UpgradeConfigTask`: the optional config-upgrade task of a
plugin, bound to the executable and asset paths.  Modelled from the spec. -/
structure GUpgradeConfigTask where
  pluginExecPath : String
  assetPaths : List String
deriving DecidableEq

/-- `pluginapi.PluginInfo`: metadata a resolved plugin publishes.  Modelled from
the spec: an ordered list of declared task names, whether the plugin consumes a
configuration file, and whether it exposes a config-upgrade task (the
`pluginapi` package is not part of the sources). -/
structure PluginInfo where
  taskNames : List String
  usesConfig : Bool
  hasUpgradeConfigTask : Bool
deriving DecidableEq

/-- `PluginInfo.Tasks(pluginExecPath, assetPaths)`: materializes the declared
task descriptors, in declared order, bound to the given paths. -/
def PluginInfo.tasks (p : PluginInfo) (pluginExecPath : String)
    (assetPaths : List String) : List GTask :=
  p.taskNames.map fun n => ⟨n, pluginExecPath, assetPaths⟩

/-- `PluginInfo.UpgradeConfigTask(pluginExecPath, assetPaths)`: the optional
config-upgrade task (Go returns `nil` when the plugin does not expose one). -/
def PluginInfo.upgradeConfigTask (p : PluginInfo) (pluginExecPath : String)
    (assetPaths : List String) : Option GUpgradeConfigTask :=
  if p.hasUpgradeConfigTask then some ⟨pluginExecPath, assetPaths⟩ else none

/-- Zero value of `pluginapi.PluginInfo` (what a Go map lookup at a missing key
yields): no tasks, no config use, no upgrade task. -/
def PluginInfo.zero : PluginInfo := ⟨[], false, false⟩

/-- `pluginInfoWithAssets`: a `pluginapi.PluginInfo` with the locators of all
the assets specified for it (source: `part_000`, lines 36-39). -/
structure PluginInfoWithAssets where
  pluginInfo : PluginInfo
  assets : List Locator
deriving DecidableEq

/-- Zero value of `pluginInfoWithAssets`. -/
def PluginInfoWithAssets.zero : PluginInfoWithAssets := ⟨PluginInfo.zero, []⟩

/-- A Go `map[artifactresolver.Locator]pluginInfoWithAssets` embedded as an
association list; well-formed representations have pairwise distinct keys. -/
abbrev PluginsMap := List (Locator × PluginInfoWithAssets)

/-- Association-list lookup: `m[k]` for the embedded Go map. -/
def lookupA {V : Type} : List (Locator × V) → Locator → Option V
  | [], _ => none
  | (k1, v) :: t, k => if k1 = k then some v else lookupA t k

/-- Association-list store: `m[k] = v` for the embedded Go map (overwrites the
existing binding for `k`, otherwise appends). -/
def upsert {V : Type} : List (Locator × V) → Locator → V → List (Locator × V)
  | [], k, v => [(k, v)]
  | (k1, v1) :: t, k, v =>
    if k1 = k then (k, v) :: t else (k1, v1) :: upsert t k v

/-- The keys of an embedded Go map. -/
def keysOf {V : Type} (m : List (Locator × V)) : List Locator := m.map Prod.fst

/-- Representation invariant of an embedded Go map: pairwise distinct keys. -/
abbrev NodupKeys {V : Type} (m : List (Locator × V)) : Prop := (keysOf m).Nodup

/-- The conflict reason recorded by `verifySinglePluginCompatibility` for one
conflicting partner (the Go code records an `error` value; the three possible
messages are distinguished here, the task-conflict one carrying the common task
list that is formatted into it). -/
inductive Reason where
  | sameVersion
  | configConflict
  | taskConflict (commonTasks : List String)
deriving DecidableEq

/-- Rendering of a conflict reason to the Go error message text. -/
def Reason.render : Reason → String
  | .sameVersion => "different version of the same plugin"
  | .configConflict =>
      "plugins have the same product name and both use configuration (this not currently supported -- if this situation is encountered, please file an issue to flag it)"
  | .taskConflict commonTasks =>
      "provides conflicting tasks: [" ++ String.intercalate " " commonTasks ++ "]"

/-- The common-task computation of `verifySinglePluginCompatibility`
(source: `part_000`, lines 275-293): sort the current plugin's declared task
names, then keep those contained in the other plugin's task-name set. -/
def commonTasksOf (p o : PluginInfo) : List String :=
  (sortStrings p.taskNames).filter fun n => o.taskNames.contains n

/-- The per-pair body of the `verifySinglePluginCompatibility` loop
(source: `part_000`, lines 261-297), for one other plugin distinct from the
current one: first matching rule wins, `none` when the pair is compatible. -/
def checkPair (plugin : Locator) (pInfo : PluginInfoWithAssets)
    (other : Locator) (oInfo : PluginInfoWithAssets) : Option Reason :=
  if other.group = plugin.group ∧ other.product = plugin.product then
    some .sameVersion
  else if plugin.product = other.product ∧
      pInfo.pluginInfo.usesConfig ∧ oInfo.pluginInfo.usesConfig then
    some .configConflict
  else
    let common := commonTasksOf pInfo.pluginInfo oInfo.pluginInfo
    if common ≠ [] then some (.taskConflict common) else none

/-- `verifySinglePluginCompatibility` (source: `part_000`, lines 255-300):
the map from each conflicting other plugin to the reason, built by iterating
the plugin map (`plugins[plugin]` is a Go map lookup, yielding the zero value
when absent). -/
def verifySinglePluginCompatibility (plugin : Locator) (plugins : PluginsMap) :
    List (Locator × Reason) :=
  let pInfo := (lookupA plugins plugin).getD PluginInfoWithAssets.zero
  plugins.filterMap fun e =>
    if e.1 = plugin then none
    else (checkPair plugin pInfo e.1 e.2).map fun r => (e.1, r)

/-- Indentation unit of aggregated error text (`pluginsinternal.IndentSpaces`).
Modelled from the spec: reasons are indented for readability; the width itself
is not fixed by the sources. -/
def indentSpaces : Nat := 2

/-- A run of `n` spaces (Go `strings.Repeat(" ", n)`). -/
def spaces (n : Nat) : String := String.mk (List.replicate n ' ')

/-- `Locator.String()`: the `group:product:version` rendering used in
diagnostics.  Modelled from the spec's coordinate notation. -/
def Locator.str (l : Locator) : String :=
  l.group ++ ":" ++ l.product ++ ":" ++ l.version

/-- Rendering of the aggregated compatibility error
(source: `part_000`, lines 238-252): header with the conflict count, then each
offending locator (sorted) on its own indented line, then each of its partners
(sorted) with the reason, doubly indented. -/
def renderConflicts (conflicts : List (Locator × List (Locator × Reason))) : String :=
  let sortedOuterKeys := sortLocators (keysOf conflicts)
  sortedOuterKeys.foldl
    (fun acc k =>
      let inner := (lookupA conflicts k).getD []
      let sortedInnerKeys := sortLocators (keysOf inner)
      let withHeader := acc ++ "\n" ++ spaces indentSpaces ++ k.str ++ ":"
      sortedInnerKeys.foldl
        (fun acc2 innerK =>
          acc2 ++ "\n" ++ spaces (indentSpaces * 2) ++
            (((lookupA inner innerK).getD .sameVersion).render))
        withHeader)
    (toString conflicts.length ++ " plugins had compatibility issues:")

/-- `verifyPluginCompatibility` (source: `part_000`, lines 216-253): collects
each plugin's conflicts, returns `none` (Go `nil`) when there are none, else
the aggregated error text. -/
def verifyPluginCompatibility (plugins : PluginsMap) : Option String :=
  let conflicts := plugins.filterMap fun e =>
    let currConflicts := verifySinglePluginCompatibility e.1 plugins
    if currConflicts = [] then none else some (e.1, currConflicts)
  if conflicts = [] then none else some (renderConflicts conflicts)

/-- `godellauncher.SinglePluginParam`: one plugin declaration.  Modelled from
the spec: a locator plus resolver/asset configuration that the per-declaration
resolution pipeline consumes; only the locator is observed by the coordinator
itself. -/
structure SinglePluginParam where
  locator : Locator
deriving DecidableEq

/-- Outcome of the per-declaration pipeline (`pluginsinternal.ResolveAndVerify`,
`pluginapi.InfoFromPlugin`, `pluginsinternal.ResolveAssets`; none of these are
part of the sources).  Modelled from the spec: each declaration independently
either yields the resolved plugin info with its assets, or fails with an error
recorded keyed by its locator. -/
inductive StepResult where
  | ok (info : PluginInfoWithAssets)
  | fail (reason : String)
deriving DecidableEq

/-- Whether a step outcome is a failure. -/
def StepResult.isFail : StepResult → Bool
  | .ok _ => false
  | .fail _ => true

/-- The failure reason of a step outcome (empty for successes). -/
def StepResult.reason : StepResult → String
  | .ok _ => ""
  | .fail r => r

/-- Observable events of one `resolvePlugins` call: the resolver lock is
acquired (or its acquisition fails), each declaration is attempted, the lock
is released. -/
inductive REvent where
  | lockFailed
  | locked
  | attempted (l : Locator)
  | unlocked
deriving DecidableEq

/-- Accumulator of the `resolvePlugins` loop: the `plugins` map, the
`pluginErrors` map, and the trace of events so far. -/
structure ResolveState where
  plugins : PluginsMap
  pluginErrors : List (Locator × String)
  events : List REvent
deriving DecidableEq

/-- One iteration of the `resolvePlugins` loop (source: `part_000`,
lines 162-192): attempt the declaration; on success store its info in the
plugins map, on failure record the error keyed by its locator and continue. -/
def resolveOne (step : SinglePluginParam → StepResult) (st : ResolveState)
    (d : SinglePluginParam) : ResolveState :=
  let st1 : ResolveState := { st with events := st.events ++ [.attempted d.locator] }
  match step d with
  | .ok info => { st1 with plugins := upsert st1.plugins d.locator info }
  | .fail r => { st1 with pluginErrors := upsert st1.pluginErrors d.locator r }

/-- The error returned when the resolver lock cannot be acquired
(source: `part_000`, line 156). -/
def lockFailMsg : String := "failed to lock resolver mutex file"

/-- Rendering of the aggregated resolution error (source: `part_000`,
lines 199-209): header with the failure count, then every failed locator's
reason in locator sort order, joined by newline plus indentation. -/
def renderResolveErrors (pluginErrors : List (Locator × String)) : String :=
  let sortedKeys := sortLocators (keysOf pluginErrors)
  let errStringsParts :=
    ("failed to resolve " ++ toString pluginErrors.length ++ " plugin(s):") ::
      sortedKeys.map fun k => (lookupA pluginErrors k).getD ""
  String.intercalate ("\n" ++ spaces indentSpaces) errStringsParts

/-- `resolvePlugins` (source: `part_000`, lines 150-210): lock the resolver
mutex file (failure is fatal and nothing is attempted), attempt every
declaration, release the lock, and either return the accumulated plugins map
(zero failures) or the aggregated error.  The on-disk lock is embedded as the
event trace returned alongside the result; `lockOk` is the outcome of the
lock acquisition. -/
def resolvePlugins (lockOk : Bool) (step : SinglePluginParam → StepResult)
    (decls : List SinglePluginParam) :
    Except String PluginsMap × List REvent :=
  if lockOk then
    let st := decls.foldl (resolveOne step) ⟨[], [], [.locked]⟩
    let events := st.events ++ [.unlocked]
    if st.pluginErrors = [] then (.ok st.plugins, events)
    else (.error (renderResolveErrors st.pluginErrors), events)
  else (.error lockFailMsg, [.lockFailed])

/-- Encoded cache bytes. -/
abbrev Bytes := List Nat

/-- Length-prefixed string encoding (cache codec building block). -/
def encStr (s : String) : Bytes := s.data.length :: s.data.map Char.toNat

/-- Decoder for `encStr`: consumes one string, returns the rest. -/
def decStr : Bytes → Option (String × Bytes)
  | [] => none
  | n :: rest =>
    let cs := rest.take n
    if cs.length = n then some (String.mk (cs.map Char.ofNat), rest.drop n)
    else none

/-- Boolean encoding (cache codec building block). -/
def encBool (b : Bool) : Bytes := [if b then 1 else 0]

/-- Decoder for `encBool`. -/
def decBool : Bytes → Option (Bool × Bytes)
  | 0 :: rest => some (false, rest)
  | 1 :: rest => some (true, rest)
  | _ => none

/-- Length-prefixed list encoding given an element encoder. -/
def encListWith {α : Type} (f : α → Bytes) (l : List α) : Bytes :=
  l.length :: l.flatMap f

/-- Decodes exactly `n` elements with the given element decoder. -/
def decCount {α : Type} (dec : Bytes → Option (α × Bytes)) :
    Nat → Bytes → Option (List α × Bytes)
  | 0, b => some ([], b)
  | n + 1, b =>
    match dec b with
    | some (a, b1) =>
      match decCount dec n b1 with
      | some (as, b2) => some (a :: as, b2)
      | none => none
    | none => none

/-- Decoder for `encListWith`. -/
def decListWith {α : Type} (dec : Bytes → Option (α × Bytes)) :
    Bytes → Option (List α × Bytes)
  | [] => none
  | n :: rest => decCount dec n rest

/-- Locator encoding: group, product, version. -/
def encLocator (l : Locator) : Bytes :=
  encStr l.group ++ encStr l.product ++ encStr l.version

/-- Decoder for `encLocator`. -/
def decLocator (b : Bytes) : Option (Locator × Bytes) :=
  match decStr b with
  | some (g, b1) =>
    match decStr b1 with
    | some (p, b2) =>
      match decStr b2 with
      | some (v, b3) => some (⟨g, p, v⟩, b3)
      | none => none
    | none => none
  | none => none

/-- Plugin-info encoding: task names, config-usage flag, upgrade-task flag. -/
def encPluginInfo (p : PluginInfo) : Bytes :=
  encListWith encStr p.taskNames ++ encBool p.usesConfig ++
    encBool p.hasUpgradeConfigTask

/-- Decoder for `encPluginInfo`. -/
def decPluginInfo (b : Bytes) : Option (PluginInfo × Bytes) :=
  match decListWith decStr b with
  | some (ts, b1) =>
    match decBool b1 with
    | some (uc, b2) =>
      match decBool b2 with
      | some (ut, b3) => some (⟨ts, uc, ut⟩, b3)
      | none => none
    | none => none
  | none => none

/-- Entry encoding for one `(Locator, pluginInfoWithAssets)` binding. -/
def encEntry (e : Locator × PluginInfoWithAssets) : Bytes :=
  encLocator e.1 ++ encPluginInfo e.2.pluginInfo ++ encListWith encLocator e.2.assets

/-- Decoder for `encEntry`. -/
def decEntry (b : Bytes) : Option ((Locator × PluginInfoWithAssets) × Bytes) :=
  match decLocator b with
  | some (k, b1) =>
    match decPluginInfo b1 with
    | some (pi1, b2) =>
      match decListWith decLocator b2 with
      | some (as, b3) => some ((k, ⟨pi1, as⟩), b3)
      | none => none
    | none => none
  | none => none

/-- Sorts a plugins-map representation by locator key. -/
def sortByLocator (m : PluginsMap) : PluginsMap :=
  List.insertionSort (fun a b => locLe a.1 b.1) m

/-- `marshalPluginsInfoJSON`.  Modelled from the spec (Cache Codec, not part of
the sources): a stable encoding — the bindings are emitted in locator sort
order, so identical map content always encodes to identical bytes. -/
def marshalPluginsInfoJSON (m : PluginsMap) : Bytes :=
  encListWith encEntry (sortByLocator m)

/-- `unmarshalPluginsInfoJSON`.  Modelled from the spec (Cache Codec, not part
of the sources): decodes the whole byte sequence or fails; never partially
populates the result. -/
def unmarshalPluginsInfoJSON (b : Bytes) : Option PluginsMap :=
  match decListWith decEntry b with
  | some (m, []) => some m
  | _ => none

/-- `pathsinternal.PluginPath`: the local path of a plugin or asset executable
inside a resource directory.  Modelled from the spec: computes where the
artifact of a locator lives on disk (`pathsinternal` is not part of the
sources). -/
def pluginPath (dir : String) (loc : Locator) : String :=
  dir ++ "/" ++ loc.group ++ "-" ++ loc.product ++ "-" ++ loc.version

/-- One iteration of the task-aggregation loop of `loadPluginsTasks`
(source: `part_000`, lines 109-123): bind the plugin's tasks to its
executable and asset paths, appending them and the optional upgrade-config
task to the accumulator. -/
def aggregateStep (pluginsDir assetsDir : String) (plugins : PluginsMap)
    (acc : List GTask × List GUpgradeConfigTask) (pluginLoc : Locator) :
    List GTask × List GUpgradeConfigTask :=
  let pluginExecPath := pluginPath pluginsDir pluginLoc
  let piwa := (lookupA plugins pluginLoc).getD PluginInfoWithAssets.zero
  let assetPaths := piwa.assets.map (pluginPath assetsDir)
  let tasks := acc.1 ++ piwa.pluginInfo.tasks pluginExecPath assetPaths
  match piwa.pluginInfo.upgradeConfigTask pluginExecPath assetPaths with
  | some u => (tasks, acc.2 ++ [u])
  | none => (tasks, acc.2)

/-- The task-aggregation loop of `loadPluginsTasks` (source: `part_000`,
lines 101-124): iterate the resolved locators in sorted order, folding
`aggregateStep` over them starting from empty task lists. -/
def aggregateTasks (pluginsDir assetsDir : String) (plugins : PluginsMap) :
    List GTask × List GUpgradeConfigTask :=
  let sortedPluginLocators := sortLocators (keysOf plugins)
  sortedPluginLocators.foldl (aggregateStep pluginsDir assetsDir plugins) ([], [])

/-- Outcome of `os.ReadFile` on the cache file: contents, a does-not-exist
error, or any other read error. -/
inductive ReadResult where
  | content (bytes : Bytes)
  | notExist
  | readErr (msg : String)
deriving DecidableEq

/-- The environment one `loadPluginsTasks` call runs in: the optional cache
path, what reading the cache file yields, the lock-acquisition outcome, the
per-declaration resolution pipeline, the declarations, whether the atomic
cache write succeeds, and the resource directories. -/
structure LoadEnv where
  cachePath : Option String
  cacheRead : ReadResult
  lockOk : Bool
  step : SinglePluginParam → StepResult
  decls : List SinglePluginParam
  writeOk : Bool
  pluginsDir : String
  assetsDir : String

/-- Observable outcome of one `loadPluginsTasks` call: the returned task lists
or error, the resolver event trace (empty when fresh resolution never ran),
whether compatibility verification ran, and the bytes written to the cache
file (`none` when the cache file was not touched). -/
structure LoadOutcome where
  result : Except String (List GTask × List GUpgradeConfigTask)
  resolveEvents : List REvent
  verified : Bool
  cacheWritten : Option Bytes

/-- `loadPluginsTasks` (source: `part_000`, lines 61-125): read the cache when
a path is supplied (decode failure and non-not-exist read errors are fatal);
when no cached set was loaded, resolve fresh, verify compatibility and write
the cache; finally aggregate the task lists from the plugin set in locator
sort order. -/
def loadPluginsTasks (env : LoadEnv) : LoadOutcome :=
  let cached : Except String (Option PluginsMap) :=
    match env.cachePath with
    | none => .ok none
    | some p =>
      match env.cacheRead with
      | .content bytes =>
        match unmarshalPluginsInfoJSON bytes with
        | some s => .ok (some s)
        | none => .error "failed to unmarshal plugin information"
      | .notExist => .ok none
      | .readErr m =>
        .error ("failed to read plugin information from cache file at " ++ p ++ ": " ++ m)
  match cached with
  | .error e => ⟨.error e, [], false, none⟩
  | .ok (some plugins) =>
    ⟨.ok (aggregateTasks env.pluginsDir env.assetsDir plugins), [], false, none⟩
  | .ok none =>
    match resolvePlugins env.lockOk env.step env.decls with
    | (.error e, ev) => ⟨.error e, ev, false, none⟩
    | (.ok plugins, ev) =>
      match verifyPluginCompatibility plugins with
      | some e => ⟨.error e, ev, true, none⟩
      | none =>
        match env.cachePath with
        | none =>
          ⟨.ok (aggregateTasks env.pluginsDir env.assetsDir plugins), ev, true, none⟩
        | some p =>
          let bytes := marshalPluginsInfoJSON plugins
          if env.writeOk then
            ⟨.ok (aggregateTasks env.pluginsDir env.assetsDir plugins), ev, true, some bytes⟩
          else
            ⟨.error ("failed to write plugin information to cache file at " ++ p),
              ev, true, none⟩

/-! ## Association-list and sorting lemmas -/

theorem nodupKeys_cons {V : Type} {e : Locator × V} {t : List (Locator × V)} :
    NodupKeys (e :: t) ↔ e.1 ∉ keysOf t ∧ NodupKeys t := by
  simp [NodupKeys, keysOf]

theorem lookupA_eq_some_of_mem {V : Type} {m : List (Locator × V)} {k : Locator}
    {v : V} (hnd : NodupKeys m) (hmem : (k, v) ∈ m) : lookupA m k = some v := by
  induction m with
  | nil => cases hmem
  | cons e t ih =>
    obtain ⟨k1, v1⟩ := e
    rcases List.mem_cons.mp hmem with h | h
    · cases h
      simp [lookupA]
    · have hkt : k ∈ keysOf t := by
        simpa [keysOf] using List.mem_map_of_mem Prod.fst h
      have hne : k1 ≠ k := fun he => (nodupKeys_cons.mp hnd).1 (he ▸ hkt)
      simp only [lookupA, if_neg hne]
      exact ih (nodupKeys_cons.mp hnd).2 h

theorem lookupA_eq_none_of_not_mem_keys {V : Type} {m : List (Locator × V)}
    {k : Locator} (h : k ∉ keysOf m) : lookupA m k = none := by
  induction m with
  | nil => rfl
  | cons e t ih =>
    obtain ⟨k1, v1⟩ := e
    simp only [keysOf, List.map_cons, List.mem_cons] at h
    push_neg at h
    have hne : k1 ≠ k := fun he => h.1 he.symm
    simp only [lookupA, if_neg hne]
    exact ih (by simpa [keysOf] using h.2)

theorem mem_keys_of_lookupA_eq_some {V : Type} {m : List (Locator × V)}
    {k : Locator} {v : V} (h : lookupA m k = some v) : k ∈ keysOf m := by
  by_contra hc
  rw [lookupA_eq_none_of_not_mem_keys hc] at h
  cases h

theorem lookupA_upsert {V : Type} (m : List (Locator × V)) (k0 k : Locator) (v0 : V) :
    lookupA (upsert m k0 v0) k = if k0 = k then some v0 else lookupA m k := by
  induction m with
  | nil => simp [upsert, lookupA]
  | cons e t ih =>
    obtain ⟨k1, v1⟩ := e
    by_cases h1 : k1 = k0
    · subst h1
      by_cases h2 : k1 = k
      · subst h2; simp [upsert, lookupA]
      · simp [upsert, lookupA, h2]
    · by_cases h2 : k1 = k
      · subst h2
        have : k0 ≠ k1 := fun he => h1 he.symm
        simp [upsert, h1, lookupA, this]
      · simp [upsert, h1, lookupA, h2, ih]

theorem lookupA_isSome_iff {V : Type} {m : List (Locator × V)} {k : Locator} :
    (lookupA m k).isSome = true ↔ k ∈ keysOf m := by
  induction m with
  | nil => simp [lookupA, keysOf]
  | cons e t ih =>
    obtain ⟨k1, v1⟩ := e
    by_cases h : k1 = k
    · subst h
      simp [lookupA, keysOf]
    · have hne : k ≠ k1 := fun he => h he.symm
      simp [lookupA, if_neg h, keysOf, hne, ih]

theorem mem_keys_upsert {V : Type} (m : List (Locator × V)) (k0 k : Locator) (v0 : V) :
    k ∈ keysOf (upsert m k0 v0) ↔ k ∈ keysOf m ∨ k = k0 := by
  rw [← lookupA_isSome_iff, ← lookupA_isSome_iff (m := m), lookupA_upsert]
  by_cases h : k0 = k
  · subst h; simp
  · have hne : k ≠ k0 := fun he => h he.symm
    simp [if_neg h, hne]

theorem nodupKeys_upsert {V : Type} {m : List (Locator × V)} (k0 : Locator) (v0 : V)
    (hnd : NodupKeys m) : NodupKeys (upsert m k0 v0) := by
  induction m with
  | nil => simp [upsert, NodupKeys, keysOf]
  | cons e t ih =>
    obtain ⟨k1, v1⟩ := e
    rcases nodupKeys_cons.mp hnd with ⟨h1, h2⟩
    by_cases hk : k1 = k0
    · subst hk
      simp only [upsert, if_pos rfl]
      exact nodupKeys_cons.mpr ⟨h1, h2⟩
    · have ht := ih h2
      have hmem : k1 ∉ keysOf (upsert t k0 v0) := by
        intro hc
        rcases (mem_keys_upsert t k0 k1 v0).mp hc with h | h
        · exact h1 h
        · exact hk h
      simp only [upsert, if_neg hk]
      exact nodupKeys_cons.mpr ⟨hmem, ht⟩

theorem sortLocators_sorted (ls : List Locator) :
    List.Sorted locLe (sortLocators ls) := List.sorted_insertionSort locLe ls

theorem sortLocators_perm (ls : List Locator) : List.Perm (sortLocators ls) ls :=
  List.perm_insertionSort locLe ls

theorem mem_sortLocators {ls : List Locator} {k : Locator} :
    k ∈ sortLocators ls ↔ k ∈ ls := (sortLocators_perm ls).mem_iff

theorem sortLocators_pairwise_lt {ls : List Locator} (hnd : ls.Nodup) :
    (sortLocators ls).Pairwise locLt := by
  have hs : (sortLocators ls).Pairwise locLe := sortLocators_sorted ls
  have hn : (sortLocators ls).Pairwise (fun a b => a ≠ b) :=
    ((sortLocators_perm ls).nodup_iff.mpr hnd)
  exact (hs.and hn).imp fun h => locLt_iff_locLe_ne.mpr h

/-! ## Characterization of the pairwise compatibility check -/

theorem keysOf_filterMap_sublist {β : Type}
    (f : Locator × PluginInfoWithAssets → Option (Locator × β))
    (hf : ∀ e x, f e = some x → x.1 = e.1) (l : PluginsMap) :
    List.Sublist (keysOf (l.filterMap f)) (keysOf l) := by
  induction l with
  | nil => simp [keysOf]
  | cons e t ih =>
    cases hfe : f e with
    | none =>
      simp only [List.filterMap_cons, hfe, keysOf, List.map_cons]
      exact ih.cons e.1
    | some x =>
      have hx := hf e x hfe
      simp only [List.filterMap_cons, hfe, keysOf, List.map_cons, hx]
      exact ih.cons₂ e.1

theorem nodupKeys_filterMap {β : Type}
    {f : Locator × PluginInfoWithAssets → Option (Locator × β)}
    (hf : ∀ e x, f e = some x → x.1 = e.1) {l : PluginsMap} (hnd : NodupKeys l) :
    NodupKeys (l.filterMap f) :=
  List.Nodup.sublist (keysOf_filterMap_sublist f hf l) hnd

theorem lookupA_checkList {pInfo : PluginInfoWithAssets} {A B : Locator}
    {iB : PluginInfoWithAssets} {plugins : PluginsMap} (hnd : NodupKeys plugins)
    (hB : (B, iB) ∈ plugins) (hne : B ≠ A) :
    lookupA (plugins.filterMap fun e =>
      if e.1 = A then none else (checkPair A pInfo e.1 e.2).map fun r => (e.1, r)) B =
      checkPair A pInfo B iB := by
  induction plugins with
  | nil => cases hB
  | cons e t ih =>
    obtain ⟨k1, v1⟩ := e
    rcases nodupKeys_cons.mp hnd with ⟨h1, h2⟩
    rcases List.mem_cons.mp hB with h | h
    · cases h
      have hA : ¬ (B = A) := hne
      cases hcp : checkPair A pInfo B iB with
      | none =>
        simp only [List.filterMap_cons, if_neg hA, hcp, Option.map_none']
        have hnk : B ∉ keysOf (t.filterMap fun e =>
            if e.1 = A then none else (checkPair A pInfo e.1 e.2).map fun r => (e.1, r)) := by
          intro hc
          exact h1 ((keysOf_filterMap_sublist _ (by
            intro e x hx
            by_cases he : e.1 = A
            · simp [he] at hx
            · simp only [if_neg he, Option.map_eq_some'] at hx
              obtain ⟨r, _, hr⟩ := hx
              exact hr ▸ rfl) t).mem hc)
        exact lookupA_eq_none_of_not_mem_keys hnk
      | some r =>
        simp [List.filterMap_cons, if_neg hA, hcp, lookupA]
    · have hBk : B ∈ keysOf t := by
        simpa [keysOf] using List.mem_map_of_mem Prod.fst h
      have hk1B : k1 ≠ B := fun he => h1 (he ▸ hBk)
      by_cases hkA : k1 = A
      · simp only [List.filterMap_cons, if_pos hkA]
        exact ih h2 h
      · cases hcp : checkPair A pInfo k1 v1 with
        | none =>
          simp only [List.filterMap_cons, if_neg hkA, hcp, Option.map_none']
          exact ih h2 h
        | some r =>
          simp only [List.filterMap_cons, if_neg hkA, hcp, Option.map_some']
          simp only [lookupA, if_neg hk1B]
          exact ih h2 h

theorem lookupA_verifySingle {A B : Locator} {iA iB : PluginInfoWithAssets}
    {plugins : PluginsMap} (hnd : NodupKeys plugins) (hA : (A, iA) ∈ plugins)
    (hB : (B, iB) ∈ plugins) (hne : B ≠ A) :
    lookupA (verifySinglePluginCompatibility A plugins) B = checkPair A iA B iB := by
  have hlk : lookupA plugins A = some iA := lookupA_eq_some_of_mem hnd hA
  have : verifySinglePluginCompatibility A plugins =
      plugins.filterMap fun e =>
        if e.1 = A then none else (checkPair A iA e.1 e.2).map fun r => (e.1, r) := by
    simp [verifySinglePluginCompatibility, hlk]
  rw [this]
  exact lookupA_checkList hnd hB hne

theorem nodupKeys_verifySingle {A : Locator} {plugins : PluginsMap}
    (hnd : NodupKeys plugins) : NodupKeys (verifySinglePluginCompatibility A plugins) := by
  unfold verifySinglePluginCompatibility
  apply nodupKeys_filterMap _ hnd
  intro e x hx
  by_cases he : e.1 = A
  · simp [he] at hx
  · simp only [if_neg he, Option.map_eq_some'] at hx
    obtain ⟨r, _, hr⟩ := hx
    exact hr ▸ rfl

theorem verify_isSome_of_conflict {A : Locator} {iA : PluginInfoWithAssets}
    {plugins : PluginsMap} (hA : (A, iA) ∈ plugins)
    (h : verifySinglePluginCompatibility A plugins ≠ []) :
    (verifyPluginCompatibility plugins).isSome = true := by
  unfold verifyPluginCompatibility
  have hmem : (A, verifySinglePluginCompatibility A plugins) ∈
      plugins.filterMap fun e =>
        let currConflicts := verifySinglePluginCompatibility e.1 plugins
        if currConflicts = [] then none else some (e.1, currConflicts) := by
    apply List.mem_filterMap.mpr
    exact ⟨(A, iA), hA, by simp [h]⟩
  have hne : (plugins.filterMap fun e =>
      let currConflicts := verifySinglePluginCompatibility e.1 plugins
      if currConflicts = [] then none else some (e.1, currConflicts)) ≠ [] := by
    intro hc
    rw [hc] at hmem
    cases hmem
  simp only [if_neg hne, Option.isSome_some]

theorem verifySingle_ne_nil_of_lookup {A B : Locator} {plugins : PluginsMap} {r : Reason}
    (h : lookupA (verifySinglePluginCompatibility A plugins) B = some r) :
    verifySinglePluginCompatibility A plugins ≠ [] := by
  intro hc
  rw [hc] at h
  cases h

theorem commonTasksOf_sorted (p o : PluginInfo) :
    List.Sorted (fun a b : String => a ≤ b) (commonTasksOf p o) :=
  (List.sorted_insertionSort _ p.taskNames).filter _

theorem mem_commonTasksOf {p o : PluginInfo} {n : String} :
    n ∈ commonTasksOf p o ↔ n ∈ p.taskNames ∧ n ∈ o.taskNames := by
  unfold commonTasksOf sortStrings
  rw [List.mem_filter]
  rw [(List.perm_insertionSort (fun a b : String => a ≤ b) p.taskNames).mem_iff]
  simp [List.contains, List.elem_iff]

theorem commonTasksOf_eq_nil_iff {p o : PluginInfo} :
    commonTasksOf p o = [] ↔ ¬∃ n, n ∈ p.taskNames ∧ n ∈ o.taskNames := by
  rw [List.eq_nil_iff_forall_not_mem]
  constructor
  · rintro h ⟨n, hn⟩
    exact h n (mem_commonTasksOf.mpr hn)
  · intro h n hn
    exact h ⟨n, mem_commonTasksOf.mp hn⟩

/-! ## Claim theorems: compatibility verification -/

/-- C2: for every resolved plugin set containing two distinct plugins whose
locators share group and product but differ in version, `Verify` fails and
reports exactly one conflict pair between them (in each direction the other
locator carries exactly the reason "different version of the same plugin",
and the conflict map keys are distinct), regardless of their task sets. -/
theorem verify_reports_duplicate_version (plugins : PluginsMap) (A B : Locator)
    (iA iB : PluginInfoWithAssets) (hnd : NodupKeys plugins)
    (hA : (A, iA) ∈ plugins) (hB : (B, iB) ∈ plugins)
    (hg : B.group = A.group) (hp : B.product = A.product) (hv : B.version ≠ A.version) :
    lookupA (verifySinglePluginCompatibility A plugins) B = some Reason.sameVersion ∧
    lookupA (verifySinglePluginCompatibility B plugins) A = some Reason.sameVersion ∧
    NodupKeys (verifySinglePluginCompatibility A plugins) ∧
    (verifyPluginCompatibility plugins).isSome = true := by
  have hne : B ≠ A := fun he => hv (congrArg Locator.version he)
  have h1 : lookupA (verifySinglePluginCompatibility A plugins) B =
      checkPair A iA B iB := lookupA_verifySingle hnd hA hB hne
  have h2 : lookupA (verifySinglePluginCompatibility B plugins) A =
      checkPair B iB A iA := lookupA_verifySingle hnd hB hA hne.symm
  have hcp1 : checkPair A iA B iB = some Reason.sameVersion := by
    simp [checkPair, hg, hp]
  have hcp2 : checkPair B iB A iA = some Reason.sameVersion := by
    simp [checkPair, hg.symm, hp.symm]
  refine ⟨h1.trans hcp1, h2.trans hcp2, nodupKeys_verifySingle hnd, ?_⟩
  exact verify_isSome_of_conflict hA
    (verifySingle_ne_nil_of_lookup (h1.trans hcp1))

/-- Witness for C2 at a concrete two-plugin set with disjoint task sets. -/
theorem verify_reports_duplicate_version_witness :
    lookupA (verifySinglePluginCompatibility ⟨"g1", "p1", "1.0"⟩
        [(⟨"g1", "p1", "1.0"⟩, ⟨⟨["a"], true, false⟩, []⟩),
         (⟨"g1", "p1", "2.0"⟩, ⟨⟨["b"], false, false⟩, []⟩)]) ⟨"g1", "p1", "2.0"⟩ =
      some Reason.sameVersion ∧
    lookupA (verifySinglePluginCompatibility ⟨"g1", "p1", "2.0"⟩
        [(⟨"g1", "p1", "1.0"⟩, ⟨⟨["a"], true, false⟩, []⟩),
         (⟨"g1", "p1", "2.0"⟩, ⟨⟨["b"], false, false⟩, []⟩)]) ⟨"g1", "p1", "1.0"⟩ =
      some Reason.sameVersion ∧
    NodupKeys (verifySinglePluginCompatibility ⟨"g1", "p1", "1.0"⟩
        [(⟨"g1", "p1", "1.0"⟩, ⟨⟨["a"], true, false⟩, []⟩),
         (⟨"g1", "p1", "2.0"⟩, ⟨⟨["b"], false, false⟩, []⟩)]) ∧
    (verifyPluginCompatibility
        [(⟨"g1", "p1", "1.0"⟩, ⟨⟨["a"], true, false⟩, []⟩),
         (⟨"g1", "p1", "2.0"⟩, ⟨⟨["b"], false, false⟩, []⟩)]).isSome = true :=
  verify_reports_duplicate_version
    [(⟨"g1", "p1", "1.0"⟩, ⟨⟨["a"], true, false⟩, []⟩),
     (⟨"g1", "p1", "2.0"⟩, ⟨⟨["b"], false, false⟩, []⟩)]
    ⟨"g1", "p1", "1.0"⟩ ⟨"g1", "p1", "2.0"⟩
    ⟨⟨["a"], true, false⟩, []⟩ ⟨⟨["b"], false, false⟩, []⟩
    (by decide) (by decide) (by decide) (by decide) (by decide) (by decide)

/-- C3: for every ordered pair of distinct resolved plugins not flagged by the
duplicate-product or config-collision rules, if their declared task-name sets
intersect then `Verify` reports for that pair exactly the overlapping names,
sorted ascending, and nothing else; if they do not intersect no reason is
reported; and if the pair is flagged by an earlier rule, no task-collision
reason is reported for it (first match wins). -/
theorem verify_reports_task_collisions (plugins : PluginsMap) (A B : Locator)
    (iA iB : PluginInfoWithAssets) (hnd : NodupKeys plugins)
    (hA : (A, iA) ∈ plugins) (hB : (B, iB) ∈ plugins) (hne : B ≠ A) :
    (¬(B.group = A.group ∧ B.product = A.product) →
      ¬(A.product = B.product ∧ iA.pluginInfo.usesConfig = true ∧
          iB.pluginInfo.usesConfig = true) →
      ((∃ n, n ∈ iA.pluginInfo.taskNames ∧ n ∈ iB.pluginInfo.taskNames) →
        ∃ common, lookupA (verifySinglePluginCompatibility A plugins) B =
            some (Reason.taskConflict common) ∧
          List.Sorted (fun a b : String => a ≤ b) common ∧
          (∀ n, n ∈ common ↔ n ∈ iA.pluginInfo.taskNames ∧ n ∈ iB.pluginInfo.taskNames) ∧
          (verifyPluginCompatibility plugins).isSome = true) ∧
      ((¬∃ n, n ∈ iA.pluginInfo.taskNames ∧ n ∈ iB.pluginInfo.taskNames) →
        lookupA (verifySinglePluginCompatibility A plugins) B = none)) ∧
    (((B.group = A.group ∧ B.product = A.product) ∨
        (A.product = B.product ∧ iA.pluginInfo.usesConfig = true ∧
          iB.pluginInfo.usesConfig = true)) →
      ∀ cs, lookupA (verifySinglePluginCompatibility A plugins) B ≠
        some (Reason.taskConflict cs)) := by
  have hch : lookupA (verifySinglePluginCompatibility A plugins) B =
      checkPair A iA B iB := lookupA_verifySingle hnd hA hB hne
  constructor
  · intro hNotDup hNotCfg
    constructor
    · intro hovl
      have hcne : commonTasksOf iA.pluginInfo iB.pluginInfo ≠ [] := by
        intro hc
        exact (commonTasksOf_eq_nil_iff.mp hc) hovl
      have hcp : checkPair A iA B iB =
          some (Reason.taskConflict (commonTasksOf iA.pluginInfo iB.pluginInfo)) := by
        simp only [checkPair, if_neg hNotDup, if_neg hNotCfg]
        simp [hcne]
      refine ⟨commonTasksOf iA.pluginInfo iB.pluginInfo, hch.trans hcp,
        commonTasksOf_sorted _ _, fun n => mem_commonTasksOf, ?_⟩
      exact verify_isSome_of_conflict hA
        (verifySingle_ne_nil_of_lookup (hch.trans hcp))
    · intro hno
      have hceq : commonTasksOf iA.pluginInfo iB.pluginInfo = [] :=
        commonTasksOf_eq_nil_iff.mpr hno
      have hcp : checkPair A iA B iB = none := by
        simp only [checkPair, if_neg hNotDup, if_neg hNotCfg]
        simp [hceq]
      exact hch.trans hcp
  · intro hflag cs
    rw [hch]
    rcases Classical.em (B.group = A.group ∧ B.product = A.product) with hdup | hdup
    · simp [checkPair, hdup]
    · rcases hflag with h | h
      · exact absurd h hdup
      · simp only [checkPair, if_neg hdup, if_pos h]
        simp

/-- Witness for C3 at a concrete pair with overlapping task names. -/
theorem verify_reports_task_collisions_witness :
    (¬((⟨"g2", "p2", "1.0"⟩ : Locator).group = (⟨"g1", "p1", "1.0"⟩ : Locator).group ∧
        (⟨"g2", "p2", "1.0"⟩ : Locator).product = (⟨"g1", "p1", "1.0"⟩ : Locator).product) →
      ¬((⟨"g1", "p1", "1.0"⟩ : Locator).product = (⟨"g2", "p2", "1.0"⟩ : Locator).product ∧
          (⟨⟨["y", "x"], true, false⟩, []⟩ : PluginInfoWithAssets).pluginInfo.usesConfig = true ∧
          (⟨⟨["z", "y"], true, false⟩, []⟩ : PluginInfoWithAssets).pluginInfo.usesConfig = true) →
      ((∃ n, n ∈ (⟨⟨["y", "x"], true, false⟩, []⟩ : PluginInfoWithAssets).pluginInfo.taskNames ∧
          n ∈ (⟨⟨["z", "y"], true, false⟩, []⟩ : PluginInfoWithAssets).pluginInfo.taskNames) →
        ∃ common, lookupA (verifySinglePluginCompatibility ⟨"g1", "p1", "1.0"⟩
            [(⟨"g1", "p1", "1.0"⟩, ⟨⟨["y", "x"], true, false⟩, []⟩),
             (⟨"g2", "p2", "1.0"⟩, ⟨⟨["z", "y"], true, false⟩, []⟩)]) ⟨"g2", "p2", "1.0"⟩ =
            some (Reason.taskConflict common) ∧
          List.Sorted (fun a b : String => a ≤ b) common ∧
          (∀ n, n ∈ common ↔
            n ∈ (⟨⟨["y", "x"], true, false⟩, []⟩ : PluginInfoWithAssets).pluginInfo.taskNames ∧
            n ∈ (⟨⟨["z", "y"], true, false⟩, []⟩ : PluginInfoWithAssets).pluginInfo.taskNames) ∧
          (verifyPluginCompatibility
              [(⟨"g1", "p1", "1.0"⟩, ⟨⟨["y", "x"], true, false⟩, []⟩),
               (⟨"g2", "p2", "1.0"⟩, ⟨⟨["z", "y"], true, false⟩, []⟩)]).isSome = true) ∧
      ((¬∃ n, n ∈ (⟨⟨["y", "x"], true, false⟩, []⟩ : PluginInfoWithAssets).pluginInfo.taskNames ∧
          n ∈ (⟨⟨["z", "y"], true, false⟩, []⟩ : PluginInfoWithAssets).pluginInfo.taskNames) →
        lookupA (verifySinglePluginCompatibility ⟨"g1", "p1", "1.0"⟩
            [(⟨"g1", "p1", "1.0"⟩, ⟨⟨["y", "x"], true, false⟩, []⟩),
             (⟨"g2", "p2", "1.0"⟩, ⟨⟨["z", "y"], true, false⟩, []⟩)]) ⟨"g2", "p2", "1.0"⟩ =
          none)) ∧
    ((((⟨"g2", "p2", "1.0"⟩ : Locator).group = (⟨"g1", "p1", "1.0"⟩ : Locator).group ∧
        (⟨"g2", "p2", "1.0"⟩ : Locator).product = (⟨"g1", "p1", "1.0"⟩ : Locator).product) ∨
       ((⟨"g1", "p1", "1.0"⟩ : Locator).product = (⟨"g2", "p2", "1.0"⟩ : Locator).product ∧
          (⟨⟨["y", "x"], true, false⟩, []⟩ : PluginInfoWithAssets).pluginInfo.usesConfig = true ∧
          (⟨⟨["z", "y"], true, false⟩, []⟩ : PluginInfoWithAssets).pluginInfo.usesConfig = true)) →
      ∀ cs, lookupA (verifySinglePluginCompatibility ⟨"g1", "p1", "1.0"⟩
          [(⟨"g1", "p1", "1.0"⟩, ⟨⟨["y", "x"], true, false⟩, []⟩),
           (⟨"g2", "p2", "1.0"⟩, ⟨⟨["z", "y"], true, false⟩, []⟩)]) ⟨"g2", "p2", "1.0"⟩ ≠
        some (Reason.taskConflict cs)) :=
  verify_reports_task_collisions
    [(⟨"g1", "p1", "1.0"⟩, ⟨⟨["y", "x"], true, false⟩, []⟩),
     (⟨"g2", "p2", "1.0"⟩, ⟨⟨["z", "y"], true, false⟩, []⟩)]
    ⟨"g1", "p1", "1.0"⟩ ⟨"g2", "p2", "1.0"⟩
    ⟨⟨["y", "x"], true, false⟩, []⟩ ⟨⟨["z", "y"], true, false⟩, []⟩
    (by decide) (by decide) (by decide) (by decide)

/-- C4: for every resolved plugin set containing two plugins with different
groups but the same product name, if both declare that they consume a
configuration file then `Verify` reports a config collision between them
(whatever their task sets), and `Verify` fails; if at most one of the two uses
configuration, no config collision is reported for that pair. -/
theorem verify_reports_config_collision (plugins : PluginsMap) (A B : Locator)
    (iA iB : PluginInfoWithAssets) (hnd : NodupKeys plugins)
    (hA : (A, iA) ∈ plugins) (hB : (B, iB) ∈ plugins)
    (hg : B.group ≠ A.group) (hp : A.product = B.product) :
    (iA.pluginInfo.usesConfig = true → iB.pluginInfo.usesConfig = true →
      lookupA (verifySinglePluginCompatibility A plugins) B = some Reason.configConflict ∧
      (verifyPluginCompatibility plugins).isSome = true) ∧
    (¬(iA.pluginInfo.usesConfig = true ∧ iB.pluginInfo.usesConfig = true) →
      lookupA (verifySinglePluginCompatibility A plugins) B ≠ some Reason.configConflict) := by
  have hne : B ≠ A := fun he => hg (congrArg Locator.group he)
  have hch : lookupA (verifySinglePluginCompatibility A plugins) B =
      checkPair A iA B iB := lookupA_verifySingle hnd hA hB hne
  have hNotDup : ¬(B.group = A.group ∧ B.product = A.product) := fun h => hg h.1
  constructor
  · intro hcA hcB
    have hcp : checkPair A iA B iB = some Reason.configConflict := by
      simp [checkPair, if_neg hNotDup, hp, hcA, hcB, hg]
    refine ⟨hch.trans hcp, ?_⟩
    exact verify_isSome_of_conflict hA
      (verifySingle_ne_nil_of_lookup (hch.trans hcp))
  · intro hno
    rw [hch]
    have hcfg : ¬(A.product = B.product ∧ iA.pluginInfo.usesConfig = true ∧
        iB.pluginInfo.usesConfig = true) := by
      rintro ⟨_, h1, h2⟩
      exact hno ⟨h1, h2⟩
    simp only [checkPair, if_neg hNotDup, if_neg hcfg]
    intro hcon
    split at hcon
    · cases hcon
    · cases hcon

/-- Witness for C4 at a concrete pair with disjoint task sets and both plugins
using configuration. -/
theorem verify_reports_config_collision_witness :
    ((⟨⟨["a"], true, false⟩, []⟩ : PluginInfoWithAssets).pluginInfo.usesConfig = true →
      (⟨⟨["b"], true, false⟩, []⟩ : PluginInfoWithAssets).pluginInfo.usesConfig = true →
      lookupA (verifySinglePluginCompatibility ⟨"g1", "p1", "1.0"⟩
          [(⟨"g1", "p1", "1.0"⟩, ⟨⟨["a"], true, false⟩, []⟩),
           (⟨"g2", "p1", "1.0"⟩, ⟨⟨["b"], true, false⟩, []⟩)]) ⟨"g2", "p1", "1.0"⟩ =
        some Reason.configConflict ∧
      (verifyPluginCompatibility
          [(⟨"g1", "p1", "1.0"⟩, ⟨⟨["a"], true, false⟩, []⟩),
           (⟨"g2", "p1", "1.0"⟩, ⟨⟨["b"], true, false⟩, []⟩)]).isSome = true) ∧
    (¬((⟨⟨["a"], true, false⟩, []⟩ : PluginInfoWithAssets).pluginInfo.usesConfig = true ∧
        (⟨⟨["b"], true, false⟩, []⟩ : PluginInfoWithAssets).pluginInfo.usesConfig = true) →
      lookupA (verifySinglePluginCompatibility ⟨"g1", "p1", "1.0"⟩
          [(⟨"g1", "p1", "1.0"⟩, ⟨⟨["a"], true, false⟩, []⟩),
           (⟨"g2", "p1", "1.0"⟩, ⟨⟨["b"], true, false⟩, []⟩)]) ⟨"g2", "p1", "1.0"⟩ ≠
        some Reason.configConflict) :=
  verify_reports_config_collision
    [(⟨"g1", "p1", "1.0"⟩, ⟨⟨["a"], true, false⟩, []⟩),
     (⟨"g2", "p1", "1.0"⟩, ⟨⟨["b"], true, false⟩, []⟩)]
    ⟨"g1", "p1", "1.0"⟩ ⟨"g2", "p1", "1.0"⟩
    ⟨⟨["a"], true, false⟩, []⟩ ⟨⟨["b"], true, false⟩, []⟩
    (by decide) (by decide) (by decide) (by decide) (by decide)

/-! ## The resolution loop -/

theorem upsert_ne_nil {V : Type} (m : List (Locator × V)) (k : Locator) (v : V) :
    upsert m k v ≠ [] := by
  cases m with
  | nil => simp [upsert]
  | cons e t =>
    obtain ⟨k1, v1⟩ := e
    by_cases h : k1 = k <;> simp [upsert, h]

theorem foldl_resolveOne_events (step : SinglePluginParam → StepResult) :
    ∀ (decls : List SinglePluginParam) (st : ResolveState),
      (decls.foldl (resolveOne step) st).events =
        st.events ++ decls.map fun d => REvent.attempted d.locator := by
  intro decls
  induction decls with
  | nil => intro st; simp
  | cons d ds ih =>
    intro st
    have hone : (resolveOne step st d).events = st.events ++ [REvent.attempted d.locator] := by
      cases hstep : step d <;> simp [resolveOne, hstep]
    simp only [List.foldl_cons, ih, hone, List.map_cons, List.append_assoc,
      List.singleton_append]

theorem foldl_resolveOne_errors_mem (step : SinglePluginParam → StepResult) :
    ∀ (decls : List SinglePluginParam) (st : ResolveState) (k : Locator),
      k ∈ keysOf (decls.foldl (resolveOne step) st).pluginErrors ↔
        k ∈ keysOf st.pluginErrors ∨
          ∃ d ∈ decls, d.locator = k ∧ (step d).isFail = true := by
  intro decls
  induction decls with
  | nil => intro st k; simp
  | cons d ds ih =>
    intro st k
    simp only [List.foldl_cons, List.mem_cons]
    rw [ih]
    cases hstep : step d with
    | ok info =>
      have herr : (resolveOne step st d).pluginErrors = st.pluginErrors := by
        simp [resolveOne, hstep]
      rw [herr]
      constructor
      · rintro (h | ⟨d1, hd1, hk, hf⟩)
        · exact Or.inl h
        · exact Or.inr ⟨d1, Or.inr hd1, hk, hf⟩
      · rintro (h | ⟨d1, hd1 | hd1, hk, hf⟩)
        · exact Or.inl h
        · subst hd1
          rw [hstep] at hf
          cases hf
        · exact Or.inr ⟨d1, hd1, hk, hf⟩
    | fail r =>
      have herr : (resolveOne step st d).pluginErrors =
          upsert st.pluginErrors d.locator r := by
        simp [resolveOne, hstep]
      rw [herr]
      rw [show ∀ P, (k ∈ keysOf (upsert st.pluginErrors d.locator r) ∨ P) ↔
          ((k ∈ keysOf st.pluginErrors ∨ k = d.locator) ∨ P) from
        fun P => by rw [mem_keys_upsert]]
      constructor
      · rintro ((h | h) | ⟨d1, hd1, hk, hf⟩)
        · exact Or.inl h
        · exact Or.inr ⟨d, Or.inl rfl, h.symm, by simp [hstep, StepResult.isFail]⟩
        · exact Or.inr ⟨d1, Or.inr hd1, hk, hf⟩
      · rintro (h | ⟨d1, hd1 | hd1, hk, hf⟩)
        · exact Or.inl (Or.inl h)
        · subst hd1
          exact Or.inl (Or.inr hk.symm)
        · exact Or.inr ⟨d1, hd1, hk, hf⟩

theorem foldl_resolveOne_errors_nil (step : SinglePluginParam → StepResult) :
    ∀ (decls : List SinglePluginParam) (st : ResolveState),
      (decls.foldl (resolveOne step) st).pluginErrors = [] ↔
        st.pluginErrors = [] ∧ ∀ d ∈ decls, (step d).isFail = false := by
  intro decls
  induction decls with
  | nil => intro st; simp
  | cons d ds ih =>
    intro st
    simp only [List.foldl_cons]
    rw [ih]
    cases hstep : step d with
    | ok info =>
      have herr : (resolveOne step st d).pluginErrors = st.pluginErrors := by
        simp [resolveOne, hstep]
      rw [herr]
      constructor
      · rintro ⟨h1, h2⟩
        refine ⟨h1, ?_⟩
        intro d1 hd1
        rcases List.mem_cons.mp hd1 with h | h
        · subst h; simp [hstep, StepResult.isFail]
        · exact h2 d1 h
      · rintro ⟨h1, h2⟩
        exact ⟨h1, fun d1 hd1 => h2 d1 (List.mem_cons_of_mem d hd1)⟩
    | fail r =>
      have herr : (resolveOne step st d).pluginErrors =
          upsert st.pluginErrors d.locator r := by
        simp [resolveOne, hstep]
      rw [herr]
      constructor
      · rintro ⟨h1, _⟩
        exact absurd h1 (upsert_ne_nil _ _ _)
      · rintro ⟨_, h2⟩
        have := h2 d (List.mem_cons_self d ds)
        rw [hstep] at this
        cases this

theorem lookupA_upsert_cases {V : Type} {m : List (Locator × V)} {k0 k : Locator}
    {v0 v : V} (h : lookupA (upsert m k0 v0) k = some v) :
    (k0 = k ∧ v0 = v) ∨ (k0 ≠ k ∧ lookupA m k = some v) := by
  rw [lookupA_upsert] at h
  by_cases hk : k0 = k
  · rw [if_pos hk] at h
    exact Or.inl ⟨hk, Option.some.inj h⟩
  · rw [if_neg hk] at h
    exact Or.inr ⟨hk, h⟩

theorem foldl_resolveOne_errors_lookup (step : SinglePluginParam → StepResult) :
    ∀ (decls : List SinglePluginParam) (st : ResolveState) (k : Locator) (r : String),
      lookupA (decls.foldl (resolveOne step) st).pluginErrors k = some r →
        lookupA st.pluginErrors k = some r ∨
          ∃ d ∈ decls, d.locator = k ∧ step d = .fail r := by
  intro decls
  induction decls with
  | nil => intro st k r h; exact Or.inl h
  | cons d ds ih =>
    intro st k r h
    simp only [List.foldl_cons] at h
    rcases ih (resolveOne step st d) k r h with h1 | ⟨d1, hd1, hk, hs⟩
    · cases hstep : step d with
      | ok info =>
        rw [show (resolveOne step st d).pluginErrors = st.pluginErrors from by
          simp [resolveOne, hstep]] at h1
        exact Or.inl h1
      | fail r1 =>
        rw [show (resolveOne step st d).pluginErrors =
            upsert st.pluginErrors d.locator r1 from by simp [resolveOne, hstep]] at h1
        rcases lookupA_upsert_cases h1 with ⟨hk, hv⟩ | ⟨_, hlk⟩
        · exact Or.inr ⟨d, List.mem_cons_self d ds, hk, hv ▸ hstep⟩
        · exact Or.inl hlk
    · exact Or.inr ⟨d1, List.mem_cons_of_mem d hd1, hk, hs⟩

theorem foldl_resolveOne_errors_nodup (step : SinglePluginParam → StepResult) :
    ∀ (decls : List SinglePluginParam) (st : ResolveState),
      NodupKeys st.pluginErrors →
        NodupKeys (decls.foldl (resolveOne step) st).pluginErrors := by
  intro decls
  induction decls with
  | nil => intro st h; exact h
  | cons d ds ih =>
    intro st h
    simp only [List.foldl_cons]
    apply ih
    cases hstep : step d with
    | ok info => simpa [resolveOne, hstep] using h
    | fail r =>
      rw [show (resolveOne step st d).pluginErrors =
          upsert st.pluginErrors d.locator r from by simp [resolveOne, hstep]]
      exact nodupKeys_upsert _ _ h

theorem foldl_resolveOne_plugins_mem (step : SinglePluginParam → StepResult) :
    ∀ (decls : List SinglePluginParam) (st : ResolveState) (k : Locator),
      k ∈ keysOf (decls.foldl (resolveOne step) st).plugins ↔
        k ∈ keysOf st.plugins ∨
          ∃ d ∈ decls, d.locator = k ∧ (step d).isFail = false := by
  intro decls
  induction decls with
  | nil => intro st k; simp
  | cons d ds ih =>
    intro st k
    simp only [List.foldl_cons, List.mem_cons]
    rw [ih]
    cases hstep : step d with
    | fail r =>
      have hpl : (resolveOne step st d).plugins = st.plugins := by
        simp [resolveOne, hstep]
      rw [hpl]
      constructor
      · rintro (h | ⟨d1, hd1, hk, hf⟩)
        · exact Or.inl h
        · exact Or.inr ⟨d1, Or.inr hd1, hk, hf⟩
      · rintro (h | ⟨d1, hd1 | hd1, hk, hf⟩)
        · exact Or.inl h
        · subst hd1
          rw [hstep] at hf
          cases hf
        · exact Or.inr ⟨d1, hd1, hk, hf⟩
    | ok info =>
      have hpl : (resolveOne step st d).plugins = upsert st.plugins d.locator info := by
        simp [resolveOne, hstep]
      rw [hpl]
      rw [show ∀ P, (k ∈ keysOf (upsert st.plugins d.locator info) ∨ P) ↔
          ((k ∈ keysOf st.plugins ∨ k = d.locator) ∨ P) from
        fun P => by rw [mem_keys_upsert]]
      constructor
      · rintro ((h | h) | ⟨d1, hd1, hk, hf⟩)
        · exact Or.inl h
        · exact Or.inr ⟨d, Or.inl rfl, h.symm, by simp [hstep, StepResult.isFail]⟩
        · exact Or.inr ⟨d1, Or.inr hd1, hk, hf⟩
      · rintro (h | ⟨d1, hd1 | hd1, hk, hf⟩)
        · exact Or.inl (Or.inl h)
        · subst hd1
          exact Or.inl (Or.inr hk.symm)
        · exact Or.inr ⟨d1, hd1, hk, hf⟩

theorem foldl_resolveOne_plugins_lookup (step : SinglePluginParam → StepResult) :
    ∀ (decls : List SinglePluginParam) (st : ResolveState) (k : Locator)
      (info : PluginInfoWithAssets),
      lookupA (decls.foldl (resolveOne step) st).plugins k = some info →
        lookupA st.plugins k = some info ∨
          ∃ d ∈ decls, d.locator = k ∧ step d = .ok info := by
  intro decls
  induction decls with
  | nil => intro st k info h; exact Or.inl h
  | cons d ds ih =>
    intro st k info h
    simp only [List.foldl_cons] at h
    rcases ih (resolveOne step st d) k info h with h1 | ⟨d1, hd1, hk, hs⟩
    · cases hstep : step d with
      | fail r =>
        rw [show (resolveOne step st d).plugins = st.plugins from by
          simp [resolveOne, hstep]] at h1
        exact Or.inl h1
      | ok info1 =>
        rw [show (resolveOne step st d).plugins =
            upsert st.plugins d.locator info1 from by simp [resolveOne, hstep]] at h1
        rcases lookupA_upsert_cases h1 with ⟨hk, hv⟩ | ⟨_, hlk⟩
        · exact Or.inr ⟨d, List.mem_cons_self d ds, hk, hv ▸ hstep⟩
        · exact Or.inl hlk
    · exact Or.inr ⟨d1, List.mem_cons_of_mem d hd1, hk, hs⟩

theorem foldl_resolveOne_plugins_nodup (step : SinglePluginParam → StepResult) :
    ∀ (decls : List SinglePluginParam) (st : ResolveState),
      NodupKeys st.plugins →
        NodupKeys (decls.foldl (resolveOne step) st).plugins := by
  intro decls
  induction decls with
  | nil => intro st h; exact h
  | cons d ds ih =>
    intro st h
    simp only [List.foldl_cons]
    apply ih
    cases hstep : step d with
    | fail r => simpa [resolveOne, hstep] using h
    | ok info =>
      rw [show (resolveOne step st d).plugins =
          upsert st.plugins d.locator info from by simp [resolveOne, hstep]]
      exact nodupKeys_upsert _ _ h

theorem resolvePlugins_true_eq (step : SinglePluginParam → StepResult)
    (decls : List SinglePluginParam) :
    resolvePlugins true step decls =
      (if (decls.foldl (resolveOne step) ⟨[], [], [REvent.locked]⟩).pluginErrors = []
       then ((.ok (decls.foldl (resolveOne step) ⟨[], [], [REvent.locked]⟩).plugins),
             (decls.foldl (resolveOne step) ⟨[], [], [REvent.locked]⟩).events ++
               [REvent.unlocked])
       else ((.error (renderResolveErrors
               (decls.foldl (resolveOne step) ⟨[], [], [REvent.locked]⟩).pluginErrors)),
             (decls.foldl (resolveOne step) ⟨[], [], [REvent.locked]⟩).events ++
               [REvent.unlocked])) := rfl

/-- C1: `resolvePlugins` attempts every declaration even when earlier ones
fail; with at least one failure it returns no plugin set and a single
aggregated error over a failure map whose keys are exactly the failed
locators, listed in strictly increasing locator order with each key's recorded
reason; with zero failures it returns the accumulated plugin set, whose keys
are exactly the successful locators, with no error.  (That every declaration
is attempted regardless of earlier failures is witnessed by the event trace:
see the lock-discipline theorem for its exact shape.) -/
theorem resolvePlugins_aggregates_failures (step : SinglePluginParam → StepResult)
    (decls : List SinglePluginParam) :
    ((∀ d ∈ decls, (step d).isFail = false) →
      ∃ m, (resolvePlugins true step decls).1 = .ok m ∧ NodupKeys m ∧
        (∀ k, k ∈ keysOf m ↔ ∃ d ∈ decls, d.locator = k ∧ (step d).isFail = false) ∧
        (∀ k info, lookupA m k = some info →
          ∃ d ∈ decls, d.locator = k ∧ step d = .ok info)) ∧
    ((∃ d ∈ decls, (step d).isFail = true) →
      ∃ fm, (resolvePlugins true step decls).1 = .error (renderResolveErrors fm) ∧
        NodupKeys fm ∧ (sortLocators (keysOf fm)).Pairwise locLt ∧
        (∀ k, k ∈ keysOf fm ↔ ∃ d ∈ decls, d.locator = k ∧ (step d).isFail = true) ∧
        (∀ k r, lookupA fm k = some r →
          ∃ d ∈ decls, d.locator = k ∧ step d = .fail r)) := by
  constructor
  · intro hall
    have hnil : (decls.foldl (resolveOne step) ⟨[], [], [REvent.locked]⟩).pluginErrors = [] :=
      (foldl_resolveOne_errors_nil step decls _).mpr ⟨rfl, hall⟩
    refine ⟨(decls.foldl (resolveOne step) ⟨[], [], [REvent.locked]⟩).plugins,
      ?_, ?_, ?_, ?_⟩
    · rw [resolvePlugins_true_eq, if_pos hnil]
    · exact foldl_resolveOne_plugins_nodup step decls _ (by simp [NodupKeys, keysOf])
    · intro k
      rw [foldl_resolveOne_plugins_mem]
      simp [keysOf]
    · intro k info h
      rcases foldl_resolveOne_plugins_lookup step decls _ k info h with h1 | h1
      · exact absurd h1 (by simp [lookupA])
      · exact h1
  · intro hex
    have hne : (decls.foldl (resolveOne step) ⟨[], [], [REvent.locked]⟩).pluginErrors ≠ [] := by
      intro hc
      obtain ⟨d, hd, hf⟩ := hex
      have := ((foldl_resolveOne_errors_nil step decls _).mp hc).2 d hd
      rw [this] at hf
      cases hf
    have hnd : NodupKeys (decls.foldl (resolveOne step) ⟨[], [], [REvent.locked]⟩).pluginErrors :=
      foldl_resolveOne_errors_nodup step decls _ (by simp [NodupKeys, keysOf])
    refine ⟨(decls.foldl (resolveOne step) ⟨[], [], [REvent.locked]⟩).pluginErrors,
      ?_, hnd, sortLocators_pairwise_lt hnd, ?_, ?_⟩
    · rw [resolvePlugins_true_eq, if_neg hne]
    · intro k
      rw [foldl_resolveOne_errors_mem]
      simp [keysOf]
    · intro k r h
      rcases foldl_resolveOne_errors_lookup step decls _ k r h with h1 | h1
      · exact absurd h1 (by simp [lookupA])
      · exact h1

/-- Witness for C1: a run where the middle declaration of three fails, and a
run where every declaration succeeds. -/
theorem resolvePlugins_aggregates_failures_witness :
    (∃ m, (resolvePlugins true
        (fun d => if d.locator = ⟨"g1", "p1", "2.0"⟩ then .fail "boom"
          else .ok ⟨⟨["a"], false, false⟩, []⟩)
        [⟨⟨"g1", "p1", "1.0"⟩⟩, ⟨⟨"g1", "p1", "2.0"⟩⟩, ⟨⟨"g2", "p2", "1.0"⟩⟩]).1 = .ok m ∧
      NodupKeys m ∧
      (∀ k, k ∈ keysOf m ↔ ∃ d ∈ ([⟨⟨"g1", "p1", "1.0"⟩⟩, ⟨⟨"g1", "p1", "2.0"⟩⟩,
          ⟨⟨"g2", "p2", "1.0"⟩⟩] : List SinglePluginParam), d.locator = k ∧
        ((fun d => if d.locator = ⟨"g1", "p1", "2.0"⟩ then StepResult.fail "boom"
          else StepResult.ok ⟨⟨["a"], false, false⟩, []⟩) d).isFail = false) ∧
      (∀ k info, lookupA m k = some info →
        ∃ d ∈ ([⟨⟨"g1", "p1", "1.0"⟩⟩, ⟨⟨"g1", "p1", "2.0"⟩⟩,
          ⟨⟨"g2", "p2", "1.0"⟩⟩] : List SinglePluginParam), d.locator = k ∧
        (fun d => if d.locator = ⟨"g1", "p1", "2.0"⟩ then StepResult.fail "boom"
          else StepResult.ok ⟨⟨["a"], false, false⟩, []⟩) d = .ok info)) ∨
    (∃ fm, (resolvePlugins true
        (fun d => if d.locator = ⟨"g1", "p1", "2.0"⟩ then .fail "boom"
          else .ok ⟨⟨["a"], false, false⟩, []⟩)
        [⟨⟨"g1", "p1", "1.0"⟩⟩, ⟨⟨"g1", "p1", "2.0"⟩⟩, ⟨⟨"g2", "p2", "1.0"⟩⟩]).1 =
        .error (renderResolveErrors fm) ∧
      NodupKeys fm ∧ (sortLocators (keysOf fm)).Pairwise locLt ∧
      (∀ k, k ∈ keysOf fm ↔ ∃ d ∈ ([⟨⟨"g1", "p1", "1.0"⟩⟩, ⟨⟨"g1", "p1", "2.0"⟩⟩,
          ⟨⟨"g2", "p2", "1.0"⟩⟩] : List SinglePluginParam), d.locator = k ∧
        ((fun d => if d.locator = ⟨"g1", "p1", "2.0"⟩ then StepResult.fail "boom"
          else StepResult.ok ⟨⟨["a"], false, false⟩, []⟩) d).isFail = true) ∧
      (∀ k r, lookupA fm k = some r →
        ∃ d ∈ ([⟨⟨"g1", "p1", "1.0"⟩⟩, ⟨⟨"g1", "p1", "2.0"⟩⟩,
          ⟨⟨"g2", "p2", "1.0"⟩⟩] : List SinglePluginParam), d.locator = k ∧
        (fun d => if d.locator = ⟨"g1", "p1", "2.0"⟩ then StepResult.fail "boom"
          else StepResult.ok ⟨⟨["a"], false, false⟩, []⟩) d = .fail r)) :=
  Or.inr ((resolvePlugins_aggregates_failures
    (fun d => if d.locator = ⟨"g1", "p1", "2.0"⟩ then .fail "boom"
      else .ok ⟨⟨["a"], false, false⟩, []⟩)
    [⟨⟨"g1", "p1", "1.0"⟩⟩, ⟨⟨"g1", "p1", "2.0"⟩⟩, ⟨⟨"g2", "p2", "1.0"⟩⟩]).2
    (by decide))

/-- C10: `resolvePlugins` embeds the `godel-resolver.lock` acquisition as the
head of its event trace: when acquisition fails the call returns the lock
error with no declaration attempted and the lock never held; when acquisition
succeeds the trace acquires the lock before any declaration is attempted,
attempts every declaration in order, and releases the lock as the final event
on both the success and the error exit path. -/
theorem resolvePlugins_lock_discipline (step : SinglePluginParam → StepResult)
    (decls : List SinglePluginParam) :
    (resolvePlugins false step decls).1 = .error lockFailMsg ∧
    (resolvePlugins false step decls).2 = [REvent.lockFailed] ∧
    (resolvePlugins true step decls).2 =
      REvent.locked :: ((decls.map fun d => REvent.attempted d.locator) ++
        [REvent.unlocked]) := by
  refine ⟨rfl, rfl, ?_⟩
  have hev : (decls.foldl (resolveOne step) ⟨[], [], [REvent.locked]⟩).events =
      [REvent.locked] ++ decls.map fun d => REvent.attempted d.locator :=
    foldl_resolveOne_events step decls _
  rw [resolvePlugins_true_eq]
  by_cases h : (decls.foldl (resolveOne step) ⟨[], [], [REvent.locked]⟩).pluginErrors = []
  · rw [if_pos h]
    simp [hev]
  · rw [if_neg h]
    simp [hev]

/-! ## Cache codec roundtrip -/

theorem decStr_encStr (s : String) (rest : Bytes) :
    decStr (encStr s ++ rest) = some (s, rest) := by
  unfold encStr decStr
  simp only [List.cons_append]
  rw [List.take_left' (by simp), List.drop_left' (by simp)]
  simp only [List.length_map, if_pos rfl]
  rw [List.map_map]
  have hcm : Char.ofNat ∘ Char.toNat = id := by
    funext c
    simp [Function.comp, Char.ofNat_toNat]
  rw [hcm, List.map_id]
  cases s
  rfl

theorem decBool_encBool (b : Bool) (rest : Bytes) :
    decBool (encBool b ++ rest) = some (b, rest) := by
  cases b <;> rfl

theorem decCount_flatMap {α : Type} (dec : Bytes → Option (α × Bytes))
    (f : α → Bytes) (hrt : ∀ (a : α) (rest : Bytes), dec (f a ++ rest) = some (a, rest)) :
    ∀ (l : List α) (rest : Bytes),
      decCount dec l.length (l.flatMap f ++ rest) = some (l, rest) := by
  intro l
  induction l with
  | nil => intro rest; simp [decCount]
  | cons a t ih =>
    intro rest
    simp only [List.length_cons, List.flatMap_cons, List.append_assoc, decCount]
    rw [hrt a (t.flatMap f ++ rest)]
    dsimp only
    rw [ih rest]

theorem decListWith_encListWith {α : Type} (dec : Bytes → Option (α × Bytes))
    (f : α → Bytes) (hrt : ∀ (a : α) (rest : Bytes), dec (f a ++ rest) = some (a, rest))
    (l : List α) (rest : Bytes) :
    decListWith dec (encListWith f l ++ rest) = some (l, rest) := by
  unfold encListWith decListWith
  simp only [List.cons_append]
  exact decCount_flatMap dec f hrt l rest

theorem decLocator_encLocator (l : Locator) (rest : Bytes) :
    decLocator (encLocator l ++ rest) = some (l, rest) := by
  unfold encLocator decLocator
  simp only [List.append_assoc]
  rw [decStr_encStr]
  dsimp only
  rw [decStr_encStr]
  dsimp only
  rw [decStr_encStr]

theorem decPluginInfo_encPluginInfo (p : PluginInfo) (rest : Bytes) :
    decPluginInfo (encPluginInfo p ++ rest) = some (p, rest) := by
  unfold encPluginInfo decPluginInfo
  simp only [List.append_assoc]
  rw [decListWith_encListWith decStr encStr decStr_encStr]
  dsimp only
  rw [decBool_encBool]
  dsimp only
  rw [decBool_encBool]

theorem decEntry_encEntry (e : Locator × PluginInfoWithAssets) (rest : Bytes) :
    decEntry (encEntry e ++ rest) = some (e, rest) := by
  unfold encEntry decEntry
  simp only [List.append_assoc]
  rw [decLocator_encLocator]
  dsimp only
  rw [decPluginInfo_encPluginInfo]
  dsimp only
  rw [decListWith_encListWith decLocator encLocator decLocator_encLocator]

theorem unmarshal_marshal_sorted (m : PluginsMap) :
    unmarshalPluginsInfoJSON (marshalPluginsInfoJSON m) = some (sortByLocator m) := by
  unfold marshalPluginsInfoJSON unmarshalPluginsInfoJSON
  rw [show encListWith encEntry (sortByLocator m) =
      encListWith encEntry (sortByLocator m) ++ [] from (List.append_nil _).symm]
  rw [decListWith_encListWith decEntry encEntry decEntry_encEntry]

instance : IsTotal (Locator × PluginInfoWithAssets) (fun a b => locLe a.1 b.1) :=
  ⟨fun a b => (inferInstanceAs (IsTotal Locator locLe)).total a.1 b.1⟩

instance : IsTrans (Locator × PluginInfoWithAssets) (fun a b => locLe a.1 b.1) :=
  ⟨fun a b c h1 h2 => (inferInstanceAs (IsTrans Locator locLe)).trans a.1 b.1 c.1 h1 h2⟩

theorem sortByLocator_sorted (m : PluginsMap) :
    List.Sorted (fun a b => locLe a.1 b.1) (sortByLocator m) :=
  List.sorted_insertionSort _ m

theorem sortByLocator_perm (m : PluginsMap) : List.Perm (sortByLocator m) m :=
  List.perm_insertionSort _ m

theorem nodupKeys_of_perm {m1 m2 : PluginsMap} (hp : List.Perm m1 m2)
    (hnd : NodupKeys m1) : NodupKeys m2 :=
  ((hp.map Prod.fst).nodup_iff).mp hnd

theorem sorted_pairs_pairwise_keyLt {m : PluginsMap}
    (hs : List.Sorted (fun a b => locLe a.1 b.1) m) (hnd : NodupKeys m) :
    m.Pairwise fun a b => locLt a.1 b.1 := by
  have hne : m.Pairwise fun a b => a.1 ≠ b.1 := by
    have h : List.Pairwise (fun a b => a ≠ b) (m.map Prod.fst) := hnd
    exact List.pairwise_map.mp h
  exact (hs.and hne).imp fun h => locLt_iff_locLe_ne.mpr ⟨h.1, h.2⟩

theorem eq_of_perm_of_pairwise_keyLt :
    ∀ {m1 m2 : PluginsMap}, List.Perm m1 m2 →
      (m1.Pairwise fun a b => locLt a.1 b.1) →
      (m2.Pairwise fun a b => locLt a.1 b.1) → m1 = m2 := by
  intro m1
  induction m1 with
  | nil =>
    intro m2 hp _ _
    exact hp.nil_eq
  | cons a t ih =>
    intro m2 hp h1 h2
    cases m2 with
    | nil => exact absurd hp.symm (by simp)
    | cons b t2 =>
      have hab : a = b := by
        by_contra hne
        have haIn : a ∈ b :: t2 := hp.mem_iff.mp (List.mem_cons_self a t)
        have hbIn : b ∈ a :: t := hp.symm.mem_iff.mp (List.mem_cons_self b t2)
        have ha2 : a ∈ t2 := by
          rcases List.mem_cons.mp haIn with h | h
          · exact absurd h hne
          · exact h
        have hb1 : b ∈ t := by
          rcases List.mem_cons.mp hbIn with h | h
          · exact absurd h.symm hne
          · exact h
        have hlt1 : locLt a.1 b.1 := (List.pairwise_cons.mp h1).1 b hb1
        have hlt2 : locLt b.1 a.1 := (List.pairwise_cons.mp h2).1 a ha2
        exact locLt_asymm hlt1 hlt2
      subst hab
      have ht : List.Perm t t2 := hp.cons_inv
      rw [ih ht (List.pairwise_cons.mp h1).2 (List.pairwise_cons.mp h2).2]

/-- C8: the cache codec round-trips — decoding the encoding of any resolved
plugin set yields that set back exactly (any set, as stored in a Go map, has a
strictly key-sorted representation) — and encoding is stable: any two
representations with the same map content (permutations with distinct keys)
encode to identical bytes. -/
theorem cache_codec_roundtrip_stable :
    (∀ m : PluginsMap, (m.Pairwise fun a b => locLt a.1 b.1) →
      unmarshalPluginsInfoJSON (marshalPluginsInfoJSON m) = some m) ∧
    (∀ m1 m2 : PluginsMap, List.Perm m1 m2 → NodupKeys m1 →
      marshalPluginsInfoJSON m1 = marshalPluginsInfoJSON m2) := by
  constructor
  · intro m hm
    rw [unmarshal_marshal_sorted]
    have : sortByLocator m = m := by
      unfold sortByLocator
      exact List.Sorted.insertionSort_eq (hm.imp fun h => le_of_lt h)
    rw [this]
  · intro m1 m2 hp hnd
    unfold marshalPluginsInfoJSON
    have heq : sortByLocator m1 = sortByLocator m2 := by
      apply eq_of_perm_of_pairwise_keyLt
      · exact (sortByLocator_perm m1).trans (hp.trans (sortByLocator_perm m2).symm)
      · exact sorted_pairs_pairwise_keyLt (sortByLocator_sorted m1)
          (nodupKeys_of_perm (sortByLocator_perm m1).symm hnd)
      · exact sorted_pairs_pairwise_keyLt (sortByLocator_sorted m2)
          (nodupKeys_of_perm (sortByLocator_perm m2).symm (nodupKeys_of_perm hp hnd))
    rw [heq]

/-- Witness for C8 at a concrete two-entry set and its reversed representation. -/
theorem cache_codec_roundtrip_stable_witness :
    unmarshalPluginsInfoJSON (marshalPluginsInfoJSON
      [(⟨"g1", "p1", "1.0"⟩, ⟨⟨["a"], true, false⟩, [⟨"g9", "p9", "9"⟩]⟩),
       (⟨"g2", "p2", "2.0"⟩, ⟨⟨["b", "c"], false, true⟩, []⟩)]) =
      some [(⟨"g1", "p1", "1.0"⟩, ⟨⟨["a"], true, false⟩, [⟨"g9", "p9", "9"⟩]⟩),
            (⟨"g2", "p2", "2.0"⟩, ⟨⟨["b", "c"], false, true⟩, []⟩)] ∧
    marshalPluginsInfoJSON
      [(⟨"g1", "p1", "1.0"⟩, ⟨⟨["a"], true, false⟩, [⟨"g9", "p9", "9"⟩]⟩),
       (⟨"g2", "p2", "2.0"⟩, ⟨⟨["b", "c"], false, true⟩, []⟩)] =
    marshalPluginsInfoJSON
      [(⟨"g2", "p2", "2.0"⟩, ⟨⟨["b", "c"], false, true⟩, []⟩),
       (⟨"g1", "p1", "1.0"⟩, ⟨⟨["a"], true, false⟩, [⟨"g9", "p9", "9"⟩]⟩)] :=
  ⟨cache_codec_roundtrip_stable.1
      [(⟨"g1", "p1", "1.0"⟩, ⟨⟨["a"], true, false⟩, [⟨"g9", "p9", "9"⟩]⟩),
       (⟨"g2", "p2", "2.0"⟩, ⟨⟨["b", "c"], false, true⟩, []⟩)] (by decide),
    cache_codec_roundtrip_stable.2
      [(⟨"g1", "p1", "1.0"⟩, ⟨⟨["a"], true, false⟩, [⟨"g9", "p9", "9"⟩]⟩),
       (⟨"g2", "p2", "2.0"⟩, ⟨⟨["b", "c"], false, true⟩, []⟩)]
      [(⟨"g2", "p2", "2.0"⟩, ⟨⟨["b", "c"], false, true⟩, []⟩),
       (⟨"g1", "p1", "1.0"⟩, ⟨⟨["a"], true, false⟩, [⟨"g9", "p9", "9"⟩]⟩)]
      (by decide) (by decide)⟩

/-! ## Cache control flow of loadPluginsTasks -/

/-- C5: when a cache path is supplied, the cache file exists and its bytes
decode, `loadPluginsTasks` uses the decoded set directly: no fresh resolution
(empty resolver trace), no compatibility verification, no cache write, and the
returned task lists are aggregated from the cached set as-is. -/
theorem loadPluginsTasks_cache_hit (env : LoadEnv) (p : String) (bytes : Bytes)
    (S : PluginsMap) (h1 : env.cachePath = some p) (h2 : env.cacheRead = .content bytes)
    (h3 : unmarshalPluginsInfoJSON bytes = some S) :
    loadPluginsTasks env =
      ⟨.ok (aggregateTasks env.pluginsDir env.assetsDir S), [], false, none⟩ := by
  unfold loadPluginsTasks
  rw [h1, h2]
  dsimp only
  rw [h3]

/-- Witness for C5: a conflicting two-plugin set (same group and product,
different versions) read from cache is aggregated without being re-verified. -/
theorem loadPluginsTasks_cache_hit_witness :
    loadPluginsTasks
      ⟨some "cache", .content (marshalPluginsInfoJSON
          [(⟨"g1", "p1", "1.0"⟩, ⟨⟨["a"], true, false⟩, []⟩),
           (⟨"g1", "p1", "2.0"⟩, ⟨⟨["b"], false, false⟩, []⟩)]),
        true, fun _ => .fail "unused", [], true, "pd", "ad"⟩ =
      ⟨.ok (aggregateTasks "pd" "ad"
          [(⟨"g1", "p1", "1.0"⟩, ⟨⟨["a"], true, false⟩, []⟩),
           (⟨"g1", "p1", "2.0"⟩, ⟨⟨["b"], false, false⟩, []⟩)]),
        [], false, none⟩ :=
  loadPluginsTasks_cache_hit
    ⟨some "cache", .content (marshalPluginsInfoJSON
        [(⟨"g1", "p1", "1.0"⟩, ⟨⟨["a"], true, false⟩, []⟩),
         (⟨"g1", "p1", "2.0"⟩, ⟨⟨["b"], false, false⟩, []⟩)]),
      true, fun _ => .fail "unused", [], true, "pd", "ad"⟩
    "cache"
    (marshalPluginsInfoJSON
        [(⟨"g1", "p1", "1.0"⟩, ⟨⟨["a"], true, false⟩, []⟩),
         (⟨"g1", "p1", "2.0"⟩, ⟨⟨["b"], false, false⟩, []⟩)])
    [(⟨"g1", "p1", "1.0"⟩, ⟨⟨["a"], true, false⟩, []⟩),
     (⟨"g1", "p1", "2.0"⟩, ⟨⟨["b"], false, false⟩, []⟩)]
    rfl rfl (by decide)

/-- C6: with a cache path supplied, a missing cache file is not an error —
the call proceeds to fresh resolution (the resolver trace is exactly the
fresh-resolution trace, and when resolution, verification and the write
succeed the call returns the aggregated tasks); any other read error, and any
decode failure on present bytes, fails the call outright with no fresh
resolution attempted. -/
theorem loadPluginsTasks_cache_missing_or_corrupt (env : LoadEnv) (p : String)
    (h1 : env.cachePath = some p) :
    (env.cacheRead = .notExist →
      (loadPluginsTasks env).resolveEvents =
        (resolvePlugins env.lockOk env.step env.decls).2 ∧
      (∀ e, (resolvePlugins env.lockOk env.step env.decls).1 = .error e →
        (loadPluginsTasks env).result = .error e) ∧
      (∀ S, (resolvePlugins env.lockOk env.step env.decls).1 = .ok S →
        verifyPluginCompatibility S = none → env.writeOk = true →
          (loadPluginsTasks env).result =
            .ok (aggregateTasks env.pluginsDir env.assetsDir S))) ∧
    (∀ m, env.cacheRead = .readErr m →
      loadPluginsTasks env =
        ⟨.error ("failed to read plugin information from cache file at " ++ p ++ ": " ++ m),
          [], false, none⟩) ∧
    (∀ bytes, env.cacheRead = .content bytes → unmarshalPluginsInfoJSON bytes = none →
      loadPluginsTasks env =
        ⟨.error "failed to unmarshal plugin information", [], false, none⟩) := by
  refine ⟨?_, ?_, ?_⟩
  · intro h2
    unfold loadPluginsTasks
    rw [h1, h2]
    dsimp only
    rcases hres : resolvePlugins env.lockOk env.step env.decls with ⟨res, ev⟩
    cases res with
    | error e =>
      dsimp only
      refine ⟨rfl, ?_, ?_⟩
      · intro e1 he1
        injection he1 with he
        rw [he]
      · intro S hS
        simp at hS
    | ok plugins =>
      dsimp only
      refine ⟨?_, ?_, ?_⟩
      · cases verifyPluginCompatibility plugins with
        | some e => rfl
        | none =>
          rcases hwo : env.writeOk with _ | _
          · rfl
          · rfl
      · intro e1 he1
        simp at he1
      · intro S hS hver hw
        injection hS with hSp
        subst hSp
        rw [hver]
        dsimp only
        rw [hw]
        rfl
  · intro m h2
    unfold loadPluginsTasks
    rw [h1, h2]
  · intro bytes h2 h3
    unfold loadPluginsTasks
    rw [h1, h2]
    dsimp only
    rw [h3]

/-- Witness for C6 at concrete environments for the missing, unreadable and
corrupt cache cases. -/
theorem loadPluginsTasks_cache_missing_or_corrupt_witness :
    ((⟨some "cache", .notExist, true, fun _ => .ok ⟨⟨["a"], false, false⟩, []⟩,
        [⟨⟨"g1", "p1", "1.0"⟩⟩], true, "pd", "ad"⟩ : LoadEnv).cacheRead = .notExist →
      (loadPluginsTasks ⟨some "cache", .notExist, true,
          fun _ => .ok ⟨⟨["a"], false, false⟩, []⟩,
          [⟨⟨"g1", "p1", "1.0"⟩⟩], true, "pd", "ad"⟩).resolveEvents =
        (resolvePlugins true (fun _ => .ok ⟨⟨["a"], false, false⟩, []⟩)
          [⟨⟨"g1", "p1", "1.0"⟩⟩]).2 ∧
      (∀ e, (resolvePlugins true (fun _ => .ok ⟨⟨["a"], false, false⟩, []⟩)
          [⟨⟨"g1", "p1", "1.0"⟩⟩]).1 = .error e →
        (loadPluginsTasks ⟨some "cache", .notExist, true,
            fun _ => .ok ⟨⟨["a"], false, false⟩, []⟩,
            [⟨⟨"g1", "p1", "1.0"⟩⟩], true, "pd", "ad"⟩).result = .error e) ∧
      (∀ S, (resolvePlugins true (fun _ => .ok ⟨⟨["a"], false, false⟩, []⟩)
          [⟨⟨"g1", "p1", "1.0"⟩⟩]).1 = .ok S →
        verifyPluginCompatibility S = none → true = true →
          (loadPluginsTasks ⟨some "cache", .notExist, true,
              fun _ => .ok ⟨⟨["a"], false, false⟩, []⟩,
              [⟨⟨"g1", "p1", "1.0"⟩⟩], true, "pd", "ad"⟩).result =
            .ok (aggregateTasks "pd" "ad" S))) ∧
    (∀ m, (⟨some "cache", .readErr "denied", true,
        fun _ => .ok ⟨⟨["a"], false, false⟩, []⟩,
        [⟨⟨"g1", "p1", "1.0"⟩⟩], true, "pd", "ad"⟩ : LoadEnv).cacheRead = .readErr m →
      loadPluginsTasks ⟨some "cache", .readErr "denied", true,
          fun _ => .ok ⟨⟨["a"], false, false⟩, []⟩,
          [⟨⟨"g1", "p1", "1.0"⟩⟩], true, "pd", "ad"⟩ =
        ⟨.error ("failed to read plugin information from cache file at " ++ "cache" ++
            ": " ++ m), [], false, none⟩) ∧
    (∀ bytes, (⟨some "cache", .content [99], true,
        fun _ => .ok ⟨⟨["a"], false, false⟩, []⟩,
        [⟨⟨"g1", "p1", "1.0"⟩⟩], true, "pd", "ad"⟩ : LoadEnv).cacheRead = .content bytes →
      unmarshalPluginsInfoJSON bytes = none →
      loadPluginsTasks ⟨some "cache", .content [99], true,
          fun _ => .ok ⟨⟨["a"], false, false⟩, []⟩,
          [⟨⟨"g1", "p1", "1.0"⟩⟩], true, "pd", "ad"⟩ =
        ⟨.error "failed to unmarshal plugin information", [], false, none⟩) :=
  ⟨(loadPluginsTasks_cache_missing_or_corrupt
      ⟨some "cache", .notExist, true, fun _ => .ok ⟨⟨["a"], false, false⟩, []⟩,
        [⟨⟨"g1", "p1", "1.0"⟩⟩], true, "pd", "ad"⟩ "cache" rfl).1,
    (loadPluginsTasks_cache_missing_or_corrupt
      ⟨some "cache", .readErr "denied", true, fun _ => .ok ⟨⟨["a"], false, false⟩, []⟩,
        [⟨⟨"g1", "p1", "1.0"⟩⟩], true, "pd", "ad"⟩ "cache" rfl).2.1,
    (loadPluginsTasks_cache_missing_or_corrupt
      ⟨some "cache", .content [99], true, fun _ => .ok ⟨⟨["a"], false, false⟩, []⟩,
        [⟨⟨"g1", "p1", "1.0"⟩⟩], true, "pd", "ad"⟩ "cache" rfl).2.2⟩

/-- C7: the cache file is written only after both fresh resolution and
compatibility verification have succeeded (and then it holds the encoding of
the resolved set): on every other path — cache hit, cache error, any
declaration failing resolution (equivalently a lock failure), or a
verification conflict — no cache write happens. -/
theorem loadPluginsTasks_cache_write_only_on_success (env : LoadEnv) (b : Bytes)
    (h : (loadPluginsTasks env).cacheWritten = some b) :
    ∃ S, (resolvePlugins env.lockOk env.step env.decls).1 = .ok S ∧
      verifyPluginCompatibility S = none ∧ b = marshalPluginsInfoJSON S ∧
      env.lockOk = true ∧ (∀ d ∈ env.decls, (env.step d).isFail = false) ∧
      (loadPluginsTasks env).result =
        .ok (aggregateTasks env.pluginsDir env.assetsDir S) := by
  unfold loadPluginsTasks at h ⊢
  cases hcp : env.cachePath with
  | none =>
    rw [hcp] at h
    dsimp only at h ⊢
    cases hres : resolvePlugins env.lockOk env.step env.decls with
    | mk res ev =>
      rw [hres] at h
      cases res with
      | error e => simp at h
      | ok plugins =>
        dsimp only at h
        cases hver : verifyPluginCompatibility plugins with
        | some e =>
          rw [hver] at h
          simp at h
        | none =>
          rw [hver] at h
          simp at h
  | some p =>
    rw [hcp] at h
    cases hcr : env.cacheRead with
    | content bytes =>
      rw [hcr] at h
      dsimp only at h
      cases hum : unmarshalPluginsInfoJSON bytes with
      | some S0 =>
        rw [hum] at h
        simp at h
      | none =>
        rw [hum] at h
        simp at h
    | notExist =>
      rw [hcr] at h
      dsimp only at h ⊢
      cases hres : resolvePlugins env.lockOk env.step env.decls with
      | mk res ev =>
        rw [hres] at h
        cases res with
        | error e => simp at h
        | ok plugins =>
          dsimp only at h ⊢
          cases hver : verifyPluginCompatibility plugins with
          | some e =>
            rw [hver] at h
            simp at h
          | none =>
            rw [hver] at h
            dsimp only at h ⊢
            cases hwo : env.writeOk with
            | false =>
              rw [hwo] at h
              simp at h
            | true =>
              rw [hwo] at h
              rw [if_pos rfl] at h ⊢
              have hlk : env.lockOk = true := by
                cases hlk2 : env.lockOk with
                | false =>
                  rw [hlk2] at hres
                  have hcontra : (Except.error lockFailMsg : Except String PluginsMap) =
                      Except.ok plugins := congrArg Prod.fst hres
                  cases hcontra
                | true => rfl
              refine ⟨plugins, ?_, hver, ?_, hlk, ?_, ?_⟩
              · rfl
              · injection h with hb
                exact hb.symm
              · rw [hlk] at hres
                rw [resolvePlugins_true_eq] at hres
                by_cases hnil :
                    (env.decls.foldl (resolveOne env.step)
                      ⟨[], [], [REvent.locked]⟩).pluginErrors = []
                · exact ((foldl_resolveOne_errors_nil env.step env.decls _).mp hnil).2
                · rw [if_neg hnil] at hres
                  have hcontra : (Except.error (renderResolveErrors
                      (env.decls.foldl (resolveOne env.step)
                        ⟨[], [], [REvent.locked]⟩).pluginErrors) :
                      Except String PluginsMap) = Except.ok plugins :=
                    congrArg Prod.fst hres
                  cases hcontra
              · rfl
    | readErr m =>
      rw [hcr] at h
      dsimp only at h
      simp at h

/-- Witness for C7: a successful fresh run that does write the cache. -/
theorem loadPluginsTasks_cache_write_only_on_success_witness :
    ∃ S, (resolvePlugins true (fun _ => .ok ⟨⟨["a"], false, false⟩, []⟩)
        [⟨⟨"g1", "p1", "1.0"⟩⟩]).1 = .ok S ∧
      verifyPluginCompatibility S = none ∧
      marshalPluginsInfoJSON [(⟨"g1", "p1", "1.0"⟩, ⟨⟨["a"], false, false⟩, []⟩)] =
        marshalPluginsInfoJSON S ∧
      true = true ∧
      (∀ d ∈ ([⟨⟨"g1", "p1", "1.0"⟩⟩] : List SinglePluginParam),
        ((fun _ => StepResult.ok ⟨⟨["a"], false, false⟩, []⟩) d).isFail = false) ∧
      (loadPluginsTasks ⟨some "cache", .notExist, true,
          fun _ => .ok ⟨⟨["a"], false, false⟩, []⟩,
          [⟨⟨"g1", "p1", "1.0"⟩⟩], true, "pd", "ad"⟩).result =
        .ok (aggregateTasks "pd" "ad" S) :=
  loadPluginsTasks_cache_write_only_on_success
    ⟨some "cache", .notExist, true, fun _ => .ok ⟨⟨["a"], false, false⟩, []⟩,
      [⟨⟨"g1", "p1", "1.0"⟩⟩], true, "pd", "ad"⟩
    (marshalPluginsInfoJSON [(⟨"g1", "p1", "1.0"⟩, ⟨⟨["a"], false, false⟩, []⟩)])
    (by decide)

/-! ## Task aggregation -/

theorem keysOf_cons {V : Type} (e : Locator × V) (t : List (Locator × V)) :
    keysOf (e :: t) = e.1 :: keysOf t := rfl

theorem keysOf_orderedInsert (e : Locator × PluginInfoWithAssets) (l : PluginsMap) :
    keysOf (List.orderedInsert (fun a b => locLe a.1 b.1) e l) =
      List.orderedInsert locLe e.1 (keysOf l) := by
  induction l with
  | nil => rfl
  | cons b t ih =>
    by_cases h : locLe e.1 b.1
    · simp only [List.orderedInsert, if_pos h, keysOf_cons]
      rfl
    · simp only [List.orderedInsert, if_neg h, keysOf_cons, ih]
      rfl

theorem keysOf_sortByLocator (m : PluginsMap) :
    keysOf (sortByLocator m) = sortLocators (keysOf m) := by
  induction m with
  | nil => rfl
  | cons e t ih =>
    show keysOf (List.orderedInsert (fun a b => locLe a.1 b.1) e (sortByLocator t)) =
      List.orderedInsert locLe e.1 (sortLocators (keysOf t))
    rw [keysOf_orderedInsert, ih]

theorem aggregateStep_lookup (pluginsDir assetsDir : String) (plugins : PluginsMap)
    {k : Locator} {v : PluginInfoWithAssets} (hk : lookupA plugins k = some v)
    (acc : List GTask × List GUpgradeConfigTask) :
    aggregateStep pluginsDir assetsDir plugins acc k =
      (match v.pluginInfo.upgradeConfigTask (pluginPath pluginsDir k)
          (v.assets.map (pluginPath assetsDir)) with
       | some u => (acc.1 ++ v.pluginInfo.tasks (pluginPath pluginsDir k)
            (v.assets.map (pluginPath assetsDir)), acc.2 ++ [u])
       | none => (acc.1 ++ v.pluginInfo.tasks (pluginPath pluginsDir k)
            (v.assets.map (pluginPath assetsDir)), acc.2)) := by
  unfold aggregateStep
  rw [hk]
  rfl

theorem aggregate_fold (pluginsDir assetsDir : String) (plugins : PluginsMap) :
    ∀ (l : PluginsMap), (∀ e ∈ l, lookupA plugins e.1 = some e.2) →
    ∀ acc : List GTask × List GUpgradeConfigTask,
      (keysOf l).foldl (aggregateStep pluginsDir assetsDir plugins) acc =
      (acc.1 ++ l.flatMap fun e =>
          e.2.pluginInfo.tasks (pluginPath pluginsDir e.1)
            (e.2.assets.map (pluginPath assetsDir)),
       acc.2 ++ l.filterMap fun e =>
          e.2.pluginInfo.upgradeConfigTask (pluginPath pluginsDir e.1)
            (e.2.assets.map (pluginPath assetsDir))) := by
  intro l
  induction l with
  | nil =>
    intro _ acc
    simp [keysOf]
  | cons e t ih =>
    intro hl acc
    obtain ⟨k, v⟩ := e
    have hk : lookupA plugins k = some v := hl (k, v) (List.mem_cons_self _ t)
    have ht : ∀ e ∈ t, lookupA plugins e.1 = some e.2 :=
      fun e he => hl e (List.mem_cons_of_mem _ he)
    rw [keysOf_cons, List.foldl_cons, aggregateStep_lookup pluginsDir assetsDir plugins hk acc]
    cases hug : v.pluginInfo.upgradeConfigTask (pluginPath pluginsDir k)
        (v.assets.map (pluginPath assetsDir)) with
    | some u =>
      rw [ih ht]
      simp [List.flatMap_cons, List.filterMap_cons, hug]
    | none =>
      rw [ih ht]
      simp [List.flatMap_cons, List.filterMap_cons, hug]

/-- C9: for every resolved plugin set, `Aggregate` iterates the locators in
locator-sorted order: the returned task list is the concatenation, in that
order, of each plugin's materialized tasks in the plugin's declared
intra-plugin order (no cross-plugin reordering, no deduplication), and the
upgrade-config tasks form a separate list in the same order, one per plugin
whose info exposes such a task. -/
theorem aggregateTasks_sorted_concatenation (pluginsDir assetsDir : String)
    (m : PluginsMap) (hnd : NodupKeys m) :
    aggregateTasks pluginsDir assetsDir m =
      ((sortByLocator m).flatMap fun e =>
        e.2.pluginInfo.tasks (pluginPath pluginsDir e.1)
          (e.2.assets.map (pluginPath assetsDir)),
       (sortByLocator m).filterMap fun e =>
        e.2.pluginInfo.upgradeConfigTask (pluginPath pluginsDir e.1)
          (e.2.assets.map (pluginPath assetsDir))) ∧
    List.Sorted (fun a b => locLe a.1 b.1) (sortByLocator m) ∧
    List.Perm (sortByLocator m) m := by
  refine ⟨?_, sortByLocator_sorted m, sortByLocator_perm m⟩
  unfold aggregateTasks
  rw [show sortLocators (keysOf m) = keysOf (sortByLocator m) from
    (keysOf_sortByLocator m).symm]
  have hl : ∀ e ∈ sortByLocator m, lookupA m e.1 = some e.2 := by
    intro e he
    obtain ⟨k, v⟩ := e
    exact lookupA_eq_some_of_mem hnd ((sortByLocator_perm m).mem_iff.mp he)
  have hfold := aggregate_fold pluginsDir assetsDir m (sortByLocator m) hl ([], [])
  simpa using hfold

/-- Witness for C9 at a concrete two-plugin set given in reverse locator
order. -/
theorem aggregateTasks_sorted_concatenation_witness :
    aggregateTasks "pd" "ad"
      [(⟨"g2", "p2", "1.0"⟩, ⟨⟨["t3"], false, false⟩, []⟩),
       (⟨"g1", "p1", "1.0"⟩, ⟨⟨["t1", "t2"], true, true⟩, [⟨"g9", "p9", "9"⟩]⟩)] =
      ((sortByLocator
        [(⟨"g2", "p2", "1.0"⟩, ⟨⟨["t3"], false, false⟩, []⟩),
         (⟨"g1", "p1", "1.0"⟩, ⟨⟨["t1", "t2"], true, true⟩, [⟨"g9", "p9", "9"⟩]⟩)]).flatMap
        (fun e => e.2.pluginInfo.tasks (pluginPath "pd" e.1)
          (e.2.assets.map (pluginPath "ad"))),
       (sortByLocator
        [(⟨"g2", "p2", "1.0"⟩, ⟨⟨["t3"], false, false⟩, []⟩),
         (⟨"g1", "p1", "1.0"⟩, ⟨⟨["t1", "t2"], true, true⟩, [⟨"g9", "p9", "9"⟩]⟩)]).filterMap
        (fun e => e.2.pluginInfo.upgradeConfigTask (pluginPath "pd" e.1)
          (e.2.assets.map (pluginPath "ad")))) ∧
    List.Sorted (fun a b => locLe a.1 b.1) (sortByLocator
      [(⟨"g2", "p2", "1.0"⟩, ⟨⟨["t3"], false, false⟩, []⟩),
       (⟨"g1", "p1", "1.0"⟩, ⟨⟨["t1", "t2"], true, true⟩, [⟨"g9", "p9", "9"⟩]⟩)]) ∧
    List.Perm (sortByLocator
      [(⟨"g2", "p2", "1.0"⟩, ⟨⟨["t3"], false, false⟩, []⟩),
       (⟨"g1", "p1", "1.0"⟩, ⟨⟨["t1", "t2"], true, true⟩, [⟨"g9", "p9", "9"⟩]⟩)])
      [(⟨"g2", "p2", "1.0"⟩, ⟨⟨["t3"], false, false⟩, []⟩),
       (⟨"g1", "p1", "1.0"⟩, ⟨⟨["t1", "t2"], true, true⟩, [⟨"g9", "p9", "9"⟩]⟩)] :=
  aggregateTasks_sorted_concatenation "pd" "ad"
    [(⟨"g2", "p2", "1.0"⟩, ⟨⟨["t3"], false, false⟩, []⟩),
     (⟨"g1", "p1", "1.0"⟩, ⟨⟨["t1", "t2"], true, true⟩, [⟨"g9", "p9", "9"⟩]⟩)]
    (by decide)

end GodelPlugins
